import Mathlib

/-!
Verification development for the flag-based state machine of dmdatapython
(src/flag_system.py and src/state_reflector.py).

The Python code is shallowly embedded: dictionaries of heterogeneous JSON-like
values become association lists over an inductive value type, Python floats used
as wall-clock times and delays become integers (only their ordering and addition
matter to the engine), and the mutable `FlagSystem` object becomes a record that
every operation threads explicitly.  Python dict iteration order is insertion
order, which the association lists preserve.
-/

namespace DM

/-- A JSON-like parameter value as stored in condition/action/event dicts.
Only the shapes actually used by the engine are represented. -/
inductive PValue where
  | str (s : String)
  | boolean (b : Bool)
  | strList (l : List String)
deriving DecidableEq, Repr

/-- A Python dict of parameters / event data: key-value association list. -/
def Params := List (String × PValue)
deriving DecidableEq, Repr

/-- `d.get(key)`: first binding of the key, if any. -/
def pget (p : Params) (key : String) : Option PValue :=
  match (List.find? (fun kv => kv.1 == key) p) with
  | some kv => some kv.2
  | none => none

/-- Python truthiness of a parameter value. -/
def pvTruthy : PValue → Bool
  | .str s => !(s.isEmpty)
  | .boolean b => b
  | .strList l => !(l.isEmpty)

/-- `d.get(key, False)` used in a boolean context: truthiness of the value,
false when the key is absent. -/
def pgetTruthy (p : Params) (key : String) : Bool :=
  match pget p key with
  | some v => pvTruthy v
  | none => false

/-- `d.get(key, default)` where a string is expected.  A non-string value is
collapsed to `""`; this is observationally equal to Python because every
string-keyed map lookup downstream returns its default on such a key. -/
def pgetStrD (p : Params) (key : String) (default : String) : String :=
  match pget p key with
  | some (.str s) => s
  | some _ => ""
  | none => default

/-- `d.get(key, [])` where a list of strings is expected. -/
def pgetStrList (p : Params) (key : String) : List String :=
  match pget p key with
  | some (.strList l) => l
  | _ => []

/-- FlagCondition: a state-change condition of a lower flag. -/
structure FlagCondition where
  condition_type : String
  params : Params
  delay : Int
deriving DecidableEq, Repr

/-- FlagAction: stored resource-control information (never executed here). -/
structure FlagAction where
  action_type : String
  params : Params
deriving DecidableEq, Repr

/-- Flag: a boolean state variable, of type "upper" or "lower". -/
structure Flag where
  flag_id : String
  name : String
  flag_type : String
  state : Bool
  priority : Option Int
  linked_lower_flags : List String
  on_conditions : List FlagCondition
  off_conditions : List FlagCondition
  on_actions : List FlagAction
  off_actions : List FlagAction
  last_state_change_time : Option Int
deriving DecidableEq, Repr

/-- An entry of `pending_conditions`: a delayed (pending) transition. -/
structure Pending where
  flag_id : String
  should_activate : Bool
  delay : Int
  time : Int
  ready : Bool
deriving DecidableEq, Repr

/-- The FlagSystem state.  The Python object keeps three dicts
(`upper_flags`, `lower_flags`, `all_flags`) over shared mutable `Flag`
objects; since `add_flag` routes every flag into `all_flags` and into
exactly one of the other two by `flag_type`, and `remove_flag` deletes from
all three, the two typed dicts are the type-filtered views of `all_flags`,
which is what we store. -/
structure FlagSystem where
  all_flags : List Flag
  recent_events : List (String × List Params)
  pending_conditions : List Pending
deriving DecidableEq, Repr

/-- `get_flag`: lookup in `all_flags`. -/
def get_flag (sys : FlagSystem) (flag_id : String) : Option Flag :=
  sys.all_flags.find? (fun f => f.flag_id == flag_id)

/-- `is_flag_active`: a flag's state, false when absent. -/
def is_flag_active (sys : FlagSystem) (flag_id : String) : Bool :=
  match get_flag sys flag_id with
  | some f => f.state
  | none => false

/-- The `upper_flags` dict: flags routed there by `add_flag`. -/
def upper_flags (sys : FlagSystem) : List Flag :=
  sys.all_flags.filter (fun f => f.flag_type == "upper")

/-- The `lower_flags` dict: every flag `add_flag` does not route to
`upper_flags`. -/
def lower_flags (sys : FlagSystem) : List Flag :=
  sys.all_flags.filter (fun f => !(f.flag_type == "upper"))

/-- The most recent recorded event of a category:
`recent_events[cat][-1]` guarded by presence and non-emptiness. -/
def lastEvent (sys : FlagSystem) (category : String) : Option Params :=
  match sys.recent_events.find? (fun kv => kv.1 == category) with
  | some kv => kv.2.getLast?
  | none => none

/-- `_check_intensity_filter`'s `intensity_map`. -/
def intensity_map : List (String × Nat) :=
  [("1", 1), ("2", 2), ("3", 3), ("4", 4),
   ("5-", 5), ("5+", 5), ("6-", 6), ("6+", 6), ("7", 7)]

/-- `_check_intensity_filter`'s `filter_map`. -/
def filter_map : List (String × Nat) :=
  [("필터 없음", 0),
   ("진도 1 이상", 1),
   ("진도 2 이상", 2),
   ("진도 3 이상", 3),
   ("진도 4 이상", 4),
   ("진도 5약 이상", 5),
   ("진도 5강 이상", 5),
   ("진도 6약 이상", 6),
   ("진도 6강 이상", 6),
   ("진도 7", 7)]

/-- `.get(key, default)` on the two intensity maps. -/
def mapGetD (m : List (String × Nat)) (key : String) (default : Nat) : Nat :=
  match m.find? (fun kv => kv.1 == key) with
  | some kv => kv.2
  | none => default

/-- `_check_intensity_filter`. -/
def check_intensity_filter (max_intensity filter_value : String) : Bool :=
  let event_intensity := mapGetD intensity_map max_intensity 0
  let required_intensity := mapGetD filter_map filter_value 0
  decide (event_intensity ≥ required_intensity)

/-- `_check_eew_condition`. -/
def check_eew_condition (params : Params) (event_data : Params)
    (announcement_type : String) : Bool :=
  let announcement_types := pgetStrList params "announcement_types"
  if !(announcement_types.isEmpty) && !(announcement_types.contains announcement_type) then
    false
  else
    let intensity_filter := pgetStrD params "intensity_filter" "필터 없음"
    if intensity_filter != "필터 없음" then
      let max_intensity := pgetStrD event_data "max_intensity" ""
      check_intensity_filter max_intensity intensity_filter
    else
      true

/-- The state lookup a flag-reference condition performs with a truthy
parameter value: for a string it is `is_flag_active`; any other (truthy)
value is never a key of the string-keyed flag dict, hence inactive. -/
def flagRefState (sys : FlagSystem) : PValue → Bool
  | .str s => is_flag_active sys s
  | _ => false

/-- `_check_condition`: the condition evaluator.  The `flag` argument is
kept because the Python method takes it, although its body never uses it.
Every unmatched branch falls through to the final `return False`. -/
def check_condition (sys : FlagSystem) (condition : FlagCondition) (_flag : Flag) : Bool :=
  let condition_type := condition.condition_type
  let params := condition.params
  if condition_type == "다른 플래그 켜짐" then
    match pget params "flag_id" with
    | some v => if pvTruthy v then flagRefState sys v else false
    | none => false
  else if condition_type == "다른 플래그 꺼짐" then
    match pget params "flag_id" with
    | some v => if pvTruthy v then !(flagRefState sys v) else false
    | none => false
  else if condition_type == "EEW 신규 발표" then
    match lastEvent sys "EEW_STARTED" with
    | some event_data =>
        if pgetTruthy event_data "is_new" then
          check_eew_condition params event_data "신규 발표"
        else false
    | none => false
  else if condition_type == "EEW 속보 발표" then
    match lastEvent sys "EEW_UPDATED" with
    | some event_data =>
        if !(pgetTruthy event_data "is_new") then
          check_eew_condition params event_data "속보 발표"
        else false
    | none => false
  else if condition_type == "EEW 더 정밀한 정보 소스" then
    match lastEvent sys "EEW_UPDATED" with
    | some event_data => check_eew_condition params event_data "더 정밀한 정보 소스"
    | none => false
  else if condition_type == "EEW 최종보" then
    match lastEvent sys "EEW_FINAL" with
    | some event_data =>
        if pgetTruthy event_data "is_final" then
          check_eew_condition params event_data "최종보"
        else false
    | none => false
  else if condition_type == "EEW 취소보" then
    match lastEvent sys "EEW_CANCELED" with
    | some event_data =>
        if pgetTruthy event_data "is_canceled" then
          check_eew_condition params event_data "취소보"
        else false
    | none => false
  else if condition_type == "EEW 경보 신규 발표" then
    match lastEvent sys "EEW_WARNING" with
    | some event_data =>
        if pgetTruthy event_data "is_warning" && pgetTruthy event_data "is_new" then
          check_eew_condition params event_data "경보 신규 발표"
        else false
    | none => false
  else if condition_type == "EEW 경보 속보 발표" then
    match lastEvent sys "EEW_WARNING" with
    | some event_data =>
        if pgetTruthy event_data "is_warning" && !(pgetTruthy event_data "is_new") then
          check_eew_condition params event_data "경보 속보 발표"
        else false
    | none => false
  else if condition_type == "EEW 경보 취소" then
    match lastEvent sys "EEW_CANCELED" with
    | some event_data =>
        if pgetTruthy event_data "is_warning" then
          check_eew_condition params event_data "경보 취소"
        else false
    | none => false
  else if condition_type == "EEW 경보 레벨 도달" then
    match lastEvent sys "EEW_WARNING" with
    | some event_data =>
        if pgetTruthy event_data "is_warning" then
          check_eew_condition params event_data "경보 레벨 도달"
        else false
    | none => false
  else if condition_type == "EEW 예상 최대 진도 상승" then
    match lastEvent sys "EEW_UPDATED" with
    | some event_data => check_eew_condition params event_data "예상 최대 진도 상승"
    | none => false
  else if condition_type == "EEW 예상 최대 진도 하강" then
    match lastEvent sys "EEW_UPDATED" with
    | some event_data => check_eew_condition params event_data "예상 최대 진도 하강"
    | none => false
  else if condition_type == "진원진도정보 수신" then
    (lastEvent sys "DETAIL_RECEIVED").isSome
  else if condition_type == "진도속보 수신" then
    (lastEvent sys "SOKUHOU_RECEIVED").isSome
  else if condition_type == "진원정보 수신" then
    (lastEvent sys "EPICENTER_RECEIVED").isSome
  else if condition_type == "해일정보 발표" then
    match lastEvent sys "TSUNAMI_RECEIVED" with
    | some event_data => !(pgetTruthy event_data "is_canceled")
    | none => false
  else if condition_type == "해일정보 취소" then
    match lastEvent sys "TSUNAMI_CANCELED" with
    | some event_data => pgetTruthy event_data "is_canceled"
    | none => false
  else
    false

/-- `_schedule_condition`: coalesced insertion of a pending transition.
An entry for the same (flag_id, should_activate) pair makes it a no-op. -/
def schedule_condition (pending_conditions : List Pending)
    (flag_id : String) (should_activate : Bool) (delay now : Int) : List Pending :=
  if pending_conditions.any
      (fun p => p.flag_id == flag_id && p.should_activate == should_activate) then
    pending_conditions
  else
    pending_conditions ++
      [{ flag_id := flag_id, should_activate := should_activate,
         delay := delay, time := now + delay, ready := false }]

/-- Step 1 of `_stabilize_state`: mark every pending transition whose time
has been reached (and whose flag exists) as ready.  The Python loop copies
every entry into `remaining_pending` unconditionally, so nothing is removed. -/
def mark_ready (now : Int) (sys : FlagSystem) : FlagSystem :=
  { sys with pending_conditions := sys.pending_conditions.map (fun p =>
      if now ≥ p.time && (get_flag sys p.flag_id).isSome then
        { p with ready := true }
      else p) }

/-- The accumulating `pending_changes` dict: assignment
`pending_changes[k] = v` (insert-or-overwrite, keeping dict position). -/
def dictAssign (m : List (String × Bool)) (k : String) (v : Bool) :
    List (String × Bool) :=
  if m.any (fun kv => kv.1 == k) then
    m.map (fun kv => if kv.1 == k then (k, v) else kv)
  else
    m ++ [(k, v)]

/-- `pending_changes` lookup. -/
def lookupChange (m : List (String × Bool)) (k : String) : Option Bool :=
  match m.find? (fun kv => kv.1 == k) with
  | some kv => some kv.2
  | none => none

/-- The on-condition loop of step 3 for one lower flag: acts on the FIRST
satisfied condition (the loop breaks there) — scheduling it if delayed,
otherwise requesting an immediate turn-on.  Returns the updated pending
list and `should_turn_on`. -/
def scanConditions (sys : FlagSystem) (now : Int) (flag : Flag)
    (conditions : List FlagCondition) (target_state : Bool)
    (pending : List Pending) : List Pending × Bool :=
  match conditions.find? (fun c => check_condition sys c flag) with
  | some c =>
      if c.delay > 0 then
        (schedule_condition pending flag.flag_id target_state c.delay now, false)
      else
        (pending, true)
  | none => (pending, false)

/-- The per-lower-flag body of step 3: evaluate on- and off-conditions and
record a desired change (guarded by the current state, `if`/`elif`). -/
def evalLowerFlag (sys : FlagSystem) (now : Int) (flag : Flag)
    (acc : List (String × Bool) × List Pending) :
    List (String × Bool) × List Pending :=
  let scanOn := scanConditions sys now flag flag.on_conditions true acc.2
  let scanOff := scanConditions sys now flag flag.off_conditions false scanOn.1
  if scanOn.2 && !flag.state then
    (dictAssign acc.1 flag.flag_id true, scanOff.1)
  else if scanOff.2 && flag.state then
    (dictAssign acc.1 flag.flag_id false, scanOff.1)
  else
    (acc.1, scanOff.1)

/-- Step 3 of `_stabilize_state`: scan all lower flags.  Conditions are
evaluated against the unmodified system state (changes are only recorded);
only `pending_conditions` is mutated along the way, by scheduling. -/
def evalLowers (sys : FlagSystem) (now : Int) :
    List (String × Bool) × List Pending :=
  (lower_flags sys).foldl (fun acc flag => evalLowerFlag sys now flag acc)
    ([], sys.pending_conditions)

/-- The ready-pending fold of `_stabilize_state`: each ready entry is added
to `pending_changes` only when its flag has no entry yet, and its ready
mark is cleared; entries are never removed from the list. -/
def foldReadyPendings (changes : List (String × Bool)) (ps : List Pending) :
    List (String × Bool) × List Pending :=
  ps.foldl (fun acc p =>
      if p.ready then
        (  (if (lookupChange acc.1 p.flag_id).isSome then acc.1
            else acc.1 ++ [(p.flag_id, p.should_activate)]),
           acc.2 ++ [{ p with ready := false }])
      else
        (acc.1, acc.2 ++ [p]))
    (changes, [])

/-- Commit one resolved change: set the state and stamp
`last_state_change_time` of the flag with the given id. -/
def setFlagState (now : Int) (sys : FlagSystem) (flag_id : String) (new_state : Bool) :
    FlagSystem :=
  { sys with all_flags := sys.all_flags.map (fun f =>
      if f.flag_id == flag_id then
        { f with state := new_state, last_state_change_time := some now }
      else f) }

/-- The body of the step-4 commit loop for one `pending_changes` entry:
a flag is touched (state and `last_state_change_time`) only when the new
state differs from its current one; the Bool accumulates `any_change`. -/
def applyChangeStep (now : Int) (acc : FlagSystem × Bool) (kv : String × Bool) :
    FlagSystem × Bool :=
  match get_flag acc.1 kv.1 with
  | some f =>
      if f.state != kv.2 then (setFlagState now acc.1 kv.1 kv.2, true)
      else acc
  | none => acc

/-- Step 4 of `_stabilize_state`: apply the recorded changes in dict order. -/
def apply_pending_changes (now : Int) (sys : FlagSystem)
    (changes : List (String × Bool)) : FlagSystem × Bool :=
  changes.foldl (applyChangeStep now) (sys, false)

/-- The OR aggregation of `_update_upper_flags_from_lower` for one upper
flag: OR of the states of its linked ids that exist in `lower_flags`
(`any` of the empty list is the explicit `False` branch). -/
def upper_should_be_on (sys : FlagSystem) (upper_flag : Flag) : Bool :=
  (upper_flag.linked_lower_flags.filterMap (fun lower_flag_id =>
      (lower_flags sys).find? (fun f => f.flag_id == lower_flag_id))).any
    (fun lower_flag => lower_flag.state)

/-- `_update_upper_flags_from_lower`.  The Python loop mutates only
upper-typed flags and each aggregation reads only lower-typed flags, so
the sequential mutation equals this simultaneous map over `all_flags`. -/
def update_upper_flags_from_lower (now : Int) (sys : FlagSystem) :
    FlagSystem × Bool :=
  let any_change := (upper_flags sys).any
      (fun f => f.state != upper_should_be_on sys f)
  ({ sys with all_flags := sys.all_flags.map (fun f =>
      if f.flag_type == "upper" then
        if f.state != upper_should_be_on sys f then
          { f with state := upper_should_be_on sys f,
                   last_state_change_time := some now }
        else f
      else f) },
   any_change)

/-- One iteration of the stabilization while-loop (steps 3–5). -/
def stabilizeIteration (now : Int) (sys : FlagSystem) : FlagSystem × Bool :=
  let scanned := evalLowers sys now
  let folded := foldReadyPendings scanned.1 scanned.2
  let sys1 := { sys with pending_conditions := folded.2 }
  let applied := apply_pending_changes now sys1 folded.1
  let updated := update_upper_flags_from_lower now applied.1
  (updated.1, applied.2 || updated.2)

/-- The bounded while-loop of `_stabilize_state` (steps 2–6): repeat while
something changed, up to the iteration cap. -/
def stabilizeLoop (now : Int) : Nat → FlagSystem → FlagSystem
  | 0, sys => sys
  | fuel + 1, sys =>
      let step := stabilizeIteration now sys
      if step.2 then stabilizeLoop now fuel step.1 else step.1

/-- `max_iterations` of `_stabilize_state`. -/
def max_iterations : Nat := 100

/-- `_stabilize_state`: one full stabilization tick at wall-clock `now`. -/
def stabilize_state (now : Int) (sys : FlagSystem) : FlagSystem :=
  stabilizeLoop now max_iterations (mark_ready now sys)

/-- Python `list.sort` is a stable by-key sort; modelled as stable
insertion: an element is placed before the first member it `le`-s. -/
def stableInsert (le : Flag → Flag → Bool) (x : Flag) : List Flag → List Flag
  | [] => [x]
  | y :: ys => if le x y then x :: y :: ys else y :: stableInsert le x ys

/-- Stable sort by the comparator (models Python `list.sort(key=...)`). -/
def stableSort (le : Flag → Flag → Bool) : List Flag → List Flag
  | [] => []
  | x :: xs => stableInsert le x (stableSort le xs)

/-- The sort key value `-(f.last_state_change_time if ... else 0)`:
Python truthiness sends both `None` and `0` to `0`. -/
def negRecency (f : Flag) : Int :=
  -(f.last_state_change_time.getD 0)

/-- The comparator of the `priority_flags.sort` key
`(f.priority, -(last_state_change_time or 0))` — lexicographic ascending.
Only called on flags whose priority is set; `getD 0` is never reached on a
`none` (Python would read the raw int there). -/
def priorityKeyLE (f g : Flag) : Bool :=
  f.priority.getD 0 < g.priority.getD 0 ||
    (f.priority.getD 0 == g.priority.getD 0 && negRecency f ≤ negRecency g)

/-- The comparator of `null_flags.sort(key=last_state_change_time or 0,
reverse=True)`: descending by recency (stable). -/
def recencyDescLE (f g : Flag) : Bool :=
  g.last_state_change_time.getD 0 ≤ f.last_state_change_time.getD 0

/-- `StateReflector._select_winner`: the deterministic winner choice over
the currently-on upper flags. -/
def select_winner (sys : FlagSystem) : Option Flag :=
  let active_flags := (upper_flags sys).filter (fun f => f.state)
  if active_flags.isEmpty then
    none
  else
    let priority_flags := active_flags.filter (fun f => f.priority.isSome)
    let null_flags := active_flags.filter (fun f => f.priority.isNone)
    if !priority_flags.isEmpty then
      (stableSort priorityKeyLE priority_flags).head?
    else
      (stableSort recencyDescLE null_flags).head?

/-- `remove_flag`: delete the flag from the three dicts, then drop the id
from `linked_lower_flags` of every remaining upper flag — via Python
`list.remove`, which erases only the FIRST occurrence. -/
def remove_flag (sys : FlagSystem) (flag_id : String) : FlagSystem :=
  let flags1 := sys.all_flags.filter (fun f => !(f.flag_id == flag_id))
  { sys with all_flags := flags1.map (fun f =>
      if f.flag_type == "upper" && f.linked_lower_flags.contains flag_id then
        { f with linked_lower_flags := f.linked_lower_flags.erase flag_id }
      else f) }

/-- The JSON dict written for a condition.  An `Option` field models key
presence; `none` is an absent key (Python `.get` then yields its default). -/
structure CondDict where
  type : Option String
  params : Option Params
  delay : Option Int
deriving DecidableEq, Repr

/-- The JSON dict written for an action. -/
structure ActionDict where
  type : Option String
  params : Option Params
deriving DecidableEq, Repr

/-- The JSON dict written for a flag.  `priority` and
`last_state_change_time` are written with value null when unset, and
Python `.get` conflates an absent key with a null value, so a single
`Option` models both faithfully.  `is_upper` is a legacy input key that
`to_dict` never writes. -/
structure FlagDict where
  id : Option String
  name : Option String
  type : Option String
  is_upper : Option Bool
  priority : Option Int
  last_state_change_time : Option Int
  state : Option Bool
  on_actions : Option (List ActionDict)
  off_actions : Option (List ActionDict)
  linked_lower_flags : Option (List String)
  on_conditions : Option (List CondDict)
  off_conditions : Option (List CondDict)
deriving DecidableEq, Repr

/-- `FlagCondition.to_dict`. -/
def FlagCondition.to_dict (c : FlagCondition) : CondDict :=
  { type := some c.condition_type, params := some c.params, delay := some c.delay }

/-- `FlagCondition.from_dict`. -/
def FlagCondition.from_dict (data : CondDict) : FlagCondition :=
  { condition_type := data.type.getD "",
    params := data.params.getD [],
    delay := data.delay.getD 0 }

/-- `FlagAction.to_dict`. -/
def FlagAction.to_dict (a : FlagAction) : ActionDict :=
  { type := some a.action_type, params := some a.params }

/-- `FlagAction.from_dict`. -/
def FlagAction.from_dict (data : ActionDict) : FlagAction :=
  { action_type := data.type.getD "", params := data.params.getD [] }

/-- `Flag.to_dict`: core keys always written; `linked_lower_flags` only for
upper flags, the condition lists only for lower flags. -/
def Flag.to_dict (f : Flag) : FlagDict :=
  { id := some f.flag_id,
    name := some f.name,
    type := some f.flag_type,
    is_upper := none,
    priority := f.priority,
    last_state_change_time := f.last_state_change_time,
    state := some f.state,
    on_actions := some (f.on_actions.map FlagAction.to_dict),
    off_actions := some (f.off_actions.map FlagAction.to_dict),
    linked_lower_flags :=
      if f.flag_type == "upper" then some f.linked_lower_flags else none,
    on_conditions :=
      if f.flag_type == "lower" then
        some (f.on_conditions.map FlagCondition.to_dict)
      else none,
    off_conditions :=
      if f.flag_type == "lower" then
        some (f.off_conditions.map FlagCondition.to_dict)
      else none }

/-- `Flag.from_dict`: constructor defaults, the legacy `is_upper`
override, explicit nullable `priority` and `last_state_change_time`,
restored `state`, and the per-kind lists (a flag of neither kind keeps
the constructor's empty lists). -/
def Flag.from_dict (data : FlagDict) : Flag :=
  let flag_type0 := data.type.getD "upper"
  let flag_type :=
    match data.is_upper with
    | some b => if b then "upper" else "lower"
    | none => flag_type0
  { flag_id := data.id.getD "",
    name := data.name.getD "",
    flag_type := flag_type,
    state := data.state.getD false,
    priority := data.priority,
    last_state_change_time := data.last_state_change_time,
    linked_lower_flags :=
      if flag_type == "upper" then data.linked_lower_flags.getD [] else [],
    on_conditions :=
      if flag_type == "lower" then
        (data.on_conditions.getD []).map FlagCondition.from_dict
      else [],
    off_conditions :=
      if flag_type == "lower" then
        (data.off_conditions.getD []).map FlagCondition.from_dict
      else [],
    on_actions := (data.on_actions.getD []).map FlagAction.from_dict,
    off_actions := (data.off_actions.getD []).map FlagAction.from_dict }

/-- `should_turn_on` of step 3 for one lower flag: the first satisfied
on-condition exists and carries no positive delay. -/
def immediate_want_on (sys : FlagSystem) (flag : Flag) : Bool :=
  match flag.on_conditions.find? (fun c => check_condition sys c flag) with
  | some c => !(decide (c.delay > 0))
  | none => false

/-- `should_turn_off` of step 3 for one lower flag. -/
def immediate_want_off (sys : FlagSystem) (flag : Flag) : Bool :=
  match flag.off_conditions.find? (fun c => check_condition sys c flag) with
  | some c => !(decide (c.delay > 0))
  | none => false

/-- The immediate decision step 3 records for one lower flag: the
`if`/`elif` guarded by the current state. -/
def flagDecision (sys : FlagSystem) (flag : Flag) : Option Bool :=
  if immediate_want_on sys flag && !flag.state then some true
  else if immediate_want_off sys flag && flag.state then some false
  else none

/-- The condition kinds `_check_condition` recognizes (its `if`/`elif`
chain); any other kind falls through to `return False`. -/
def knownConditionKinds : List String :=
  ["다른 플래그 켜짐", "다른 플래그 꺼짐",
   "EEW 신규 발표", "EEW 속보 발표", "EEW 더 정밀한 정보 소스",
   "EEW 최종보", "EEW 취소보",
   "EEW 경보 신규 발표", "EEW 경보 속보 발표", "EEW 경보 취소",
   "EEW 경보 레벨 도달",
   "EEW 예상 최대 진도 상승", "EEW 예상 최대 진도 하강",
   "진원진도정보 수신", "진도속보 수신", "진원정보 수신",
   "해일정보 발표", "해일정보 취소"]

/-- At most one pending transition per (flag_id, target_state) pair. -/
def pendingPairUnique (ps : List Pending) : Prop :=
  List.Pairwise
    (fun p q => ¬(p.flag_id = q.flag_id ∧ p.should_activate = q.should_activate)) ps

/-- A freshly constructed flag, as `Flag.__init__(id, name, type)` with
`name = id` (state off, no priority, empty lists, no change time). -/
def baseFlag (fid : String) (ft : String) : Flag :=
  { flag_id := fid, name := fid, flag_type := ft, state := false, priority := none,
    linked_lower_flags := [], on_conditions := [], off_conditions := [],
    on_actions := [], off_actions := [], last_state_change_time := none }

/-- A delay-free condition satisfied whenever a DETAIL_RECEIVED fact exists. -/
def condDetail : FlagCondition :=
  { condition_type := "진원진도정보 수신", params := [], delay := 0 }

/-- A lower flag, currently ON, whose on- and off-conditions are both the
always-satisfied zero-delay `condDetail`. -/
def lowBoth : Flag :=
  { baseFlag "L" "lower" with
      state := true
      on_conditions := [condDetail]
      off_conditions := [condDetail] }

/-- System for the want-on/want-off conflict: one lower flag with both
wants satisfied in every pass of the tick. -/
def sysBoth : FlagSystem :=
  { all_flags := [lowBoth],
    recent_events := [("DETAIL_RECEIVED", [([] : Params)])],
    pending_conditions := [] }

/-- A lower flag, currently OFF, with a satisfied zero-delay off-condition. -/
def lowOff : Flag :=
  { baseFlag "L" "lower" with
      off_conditions := [condDetail] }

/-- System for pending-transition consumption: one already-due pending
on-transition for a flag whose off-condition holds. -/
def sysPend : FlagSystem :=
  { all_flags := [lowOff],
    recent_events := [("DETAIL_RECEIVED", [([] : Params)])],
    pending_conditions :=
      [{ flag_id := "L", should_activate := true, delay := 5, time := 0, ready := false }] }

/-- System for idempotence: a conditionless lower flag with a pending
on-transition that becomes due only at time 5. -/
def sysLater : FlagSystem :=
  { all_flags := [baseFlag "L" "lower"],
    recent_events := [],
    pending_conditions :=
      [{ flag_id := "L", should_activate := true, delay := 5, time := 5, ready := false }] }

/-- An upper flag aggregating the lower flag `L`. -/
def upLink : Flag :=
  { baseFlag "U" "upper" with
      linked_lower_flags := ["L"] }

/-- A stable system: one off lower flag without conditions, one upper flag
aggregating it, one not-yet-due pending transition. -/
def sysStable : FlagSystem :=
  { all_flags := [baseFlag "L" "lower", upLink],
    recent_events := [],
    pending_conditions :=
      [{ flag_id := "L", should_activate := true, delay := 5, time := 99, ready := false }] }

/-- Active upper flag with priority 1, turned on at time 10. -/
def flagA : Flag :=
  { baseFlag "A" "upper" with
      state := true
      priority := some 1
      last_state_change_time := some 10 }

/-- Active upper flag with priority 2, turned on later, at time 99. -/
def flagB : Flag :=
  { baseFlag "B" "upper" with
      state := true
      priority := some 2
      last_state_change_time := some 99 }

/-- Winner-selection example system: A(priority 1) and B(priority 2). -/
def sysAB : FlagSystem :=
  { all_flags := [flagA, flagB], recent_events := [], pending_conditions := [] }

/-- Upper flag aggregating L1 and L2. -/
def upTwo : Flag :=
  { baseFlag "U" "upper" with
      state := true
      linked_lower_flags := ["L1", "L2"] }

/-- System in which both linked lower flags turn off within one pass. -/
def sysAgg : FlagSystem :=
  { all_flags :=
      [upTwo,
       { baseFlag "L1" "lower" with
           state := true
           off_conditions := [condDetail] },
       { baseFlag "L2" "lower" with
           state := true
           off_conditions := [condDetail] }],
    recent_events := [("DETAIL_RECEIVED", [([] : Params)])],
    pending_conditions := [] }

/-- Upper flag whose linked list mentions `L` twice. -/
def upDup : Flag :=
  { baseFlag "U" "upper" with
      linked_lower_flags := ["L", "L"] }

/-- System for flag removal: an upper flag linking `L` twice. -/
def sysDup : FlagSystem :=
  { all_flags := [upDup, baseFlag "L" "lower"],
    recent_events := [], pending_conditions := [] }

/-- A flag exercising every serialized field for the round-trip. -/
def flagRt : Flag :=
  { baseFlag "X" "lower" with
      state := true
      priority := some 3
      last_state_change_time := some 42
      on_conditions := [condDetail]
      on_actions := [{ action_type := "소스 표시", params := [("scene_name", .str "s")] }] }

/-! ### Helper lemmas -/
theorem find?_map_pred {α : Type} {l : List α} {p : α → Bool} {g : α → α}
    (hg : ∀ f, p (g f) = p f) :
    (l.map g).find? p = (l.find? p).map g := by
  rw [List.find?_map]
  have he : p ∘ g = p := funext hg
  rw [he]

theorem filter_map_pred {α : Type} {l : List α} {p : α → Bool} {g : α → α}
    (hg : ∀ f, p (g f) = p f) :
    (l.map g).filter p = (l.filter p).map g := by
  rw [List.filter_map]
  have he : p ∘ g = p := funext hg
  rw [he]

theorem get_flag_eq_find? (sys : FlagSystem) (fid : String) :
    get_flag sys fid = sys.all_flags.find? (fun f => f.flag_id == fid) := rfl

theorem setFlagState_g_pred (now : Int) (k : String) (v : Bool) (fid : String) :
    ∀ f : Flag,
      ((fun f : Flag => f.flag_id == fid)
        (if f.flag_id == k then
          { f with state := v, last_state_change_time := some now }
         else f)) = (f.flag_id == fid) := by
  intro f
  by_cases h : (f.flag_id == k) = true <;> simp [h]

theorem get_flag_setFlagState (now : Int) (sys : FlagSystem) (k : String) (v : Bool)
    (fid : String) :
    get_flag (setFlagState now sys k v) fid =
      (get_flag sys fid).map (fun f =>
        if f.flag_id == k then { f with state := v, last_state_change_time := some now }
        else f) := by
  show (sys.all_flags.map _).find? _ = _
  rw [find?_map_pred (setFlagState_g_pred now k v fid)]
  rfl

theorem get_flag_setFlagState_other {now : Int} {sys : FlagSystem} {k : String}
    {v : Bool} {fid : String} (h : fid ≠ k) :
    get_flag (setFlagState now sys k v) fid = get_flag sys fid := by
  rw [get_flag_setFlagState]
  cases e : get_flag sys fid with
  | none => rfl
  | some f =>
      have hf : f.flag_id = fid := by
        have h2 := List.find?_some
          (show List.find? (fun g : Flag => g.flag_id == fid) sys.all_flags = some f from e)
        simpa using h2
      have hne : f.flag_id ≠ k := by rw [hf]; exact h
      simp [beq_eq_false_iff_ne.mpr hne]
      intro h3
      exact absurd h3 hne

theorem get_flag_setFlagState_self {now : Int} {sys : FlagSystem} {k : String}
    {v : Bool} {f : Flag} (h : get_flag sys k = some f) :
    get_flag (setFlagState now sys k v) k =
      some { f with state := v, last_state_change_time := some now } := by
  rw [get_flag_setFlagState, h]
  have hf : f.flag_id = k := by
    have h2 := List.find?_some
      (show List.find? (fun g : Flag => g.flag_id == k) sys.all_flags = some f from h)
    simpa using h2
  simp [hf]

theorem update_upper_g_pred (now : Int) (sys : FlagSystem) (p : Flag → Bool)
    (hp : ∀ f : Flag, ∀ b : Bool, ∀ t : Option Int,
        p { f with state := b, last_state_change_time := t } = p f) :
    ∀ f : Flag,
      (p (if f.flag_type == "upper" then
            if f.state != upper_should_be_on sys f then
              { f with state := upper_should_be_on sys f,
                       last_state_change_time := some now }
            else f
          else f)) = p f := by
  intro f
  by_cases h : (f.flag_type == "upper") = true
  · by_cases h2 : (f.state != upper_should_be_on sys f) = true
    · simp only [h, if_true, h2]
      exact hp f _ _
    · simp only [h, if_true, h2, if_false, Bool.false_eq_true]
  · simp only [h, if_false, Bool.false_eq_true]

theorem get_flag_update_upper (now : Int) (sys : FlagSystem) (fid : String) :
    get_flag (update_upper_flags_from_lower now sys).1 fid =
      (get_flag sys fid).map (fun f =>
        if f.flag_type == "upper" then
          if f.state != upper_should_be_on sys f then
            { f with state := upper_should_be_on sys f,
                     last_state_change_time := some now }
          else f
        else f) := by
  show (sys.all_flags.map _).find? _ = _
  rw [find?_map_pred
      (update_upper_g_pred now sys (fun f => f.flag_id == fid) (fun f b t => rfl))]
  rfl

theorem lower_flags_update_upper (now : Int) (sys : FlagSystem) :
    lower_flags (update_upper_flags_from_lower now sys).1 = lower_flags sys := by
  show (sys.all_flags.map _).filter _ = _
  rw [filter_map_pred
      (update_upper_g_pred now sys (fun f => !(f.flag_type == "upper")) (fun f b t => rfl))]
  have hid : ∀ f ∈ sys.all_flags.filter (fun f => !(f.flag_type == "upper")),
      (if f.flag_type == "upper" then
        if f.state != upper_should_be_on sys f then
          { f with state := upper_should_be_on sys f,
                   last_state_change_time := some now }
        else f
      else f) = f := by
    intro f hf
    have hft := (List.mem_filter.mp hf).2
    simp only [Bool.not_eq_true'] at hft
    simp [hft]
  rw [List.map_congr_left hid]
  exact List.map_id' _

theorem upper_flags_update_upper (now : Int) (sys : FlagSystem) :
    upper_flags (update_upper_flags_from_lower now sys).1 =
      (upper_flags sys).map (fun f =>
        if f.flag_type == "upper" then
          if f.state != upper_should_be_on sys f then
            { f with state := upper_should_be_on sys f,
                     last_state_change_time := some now }
          else f
        else f) := by
  show (sys.all_flags.map _).filter _ = _
  rw [filter_map_pred
      (update_upper_g_pred now sys (fun f => f.flag_type == "upper") (fun f b t => rfl))]
  rfl

theorem upper_should_be_on_congr {s1 s2 : FlagSystem}
    (h : lower_flags s1 = lower_flags s2) {f g : Flag}
    (hl : f.linked_lower_flags = g.linked_lower_flags) :
    upper_should_be_on s1 f = upper_should_be_on s2 g := by
  unfold upper_should_be_on
  rw [h, hl]

theorem update_upper_establishes (now : Int) (sys : FlagSystem) :
    ∀ f ∈ upper_flags (update_upper_flags_from_lower now sys).1,
      f.state = upper_should_be_on (update_upper_flags_from_lower now sys).1 f := by
  intro f hf
  rw [upper_flags_update_upper] at hf
  obtain ⟨f0, hf0, rfl⟩ := List.mem_map.mp hf
  have ht : (f0.flag_type == "upper") = true := (List.mem_filter.mp hf0).2
  have hlow := lower_flags_update_upper now sys
  by_cases h2 : (f0.state != upper_should_be_on sys f0) = true
  · simp only [ht, if_true, h2]
    rw [upper_should_be_on_congr hlow
      (show Flag.linked_lower_flags
          { f0 with state := upper_should_be_on sys f0,
                    last_state_change_time := some now }
        = f0.linked_lower_flags from rfl)]
  · simp only [ht, if_true, h2, if_false, Bool.false_eq_true]
    have hst : f0.state = upper_should_be_on sys f0 := by
      simpa using h2
    rw [upper_should_be_on_congr hlow (rfl : f0.linked_lower_flags = f0.linked_lower_flags)]
    exact hst

theorem stabilizeIteration_fst (now : Int) (sys : FlagSystem) :
    (stabilizeIteration now sys).1 =
      (update_upper_flags_from_lower now
        (apply_pending_changes now
          { sys with pending_conditions :=
              (foldReadyPendings (evalLowers sys now).1 (evalLowers sys now).2).2 }
          (foldReadyPendings (evalLowers sys now).1 (evalLowers sys now).2).1).1).1 := rfl

theorem stabilizeLoop_inv (now : Int) {P : FlagSystem → Prop}
    (hP : ∀ s, P (stabilizeIteration now s).1) :
    ∀ fuel s, P (stabilizeLoop now (fuel + 1) s) := by
  intro fuel
  induction fuel with
  | zero =>
      intro s
      simp only [stabilizeLoop]
      split
      · exact hP s
      · exact hP s
  | succ n ih =>
      intro s
      simp only [stabilizeLoop]
      split
      · exact ih _
      · exact hP s

theorem lookupChange_cons (kv : String × Bool) (m : List (String × Bool)) (k : String) :
    lookupChange (kv :: m) k = if kv.1 == k then some kv.2 else lookupChange m k := by
  unfold lookupChange
  rw [List.find?_cons]
  by_cases h : (kv.1 == k) = true <;> simp [h]

theorem get_flag_applyChangeStep_other {now : Int} {acc : FlagSystem × Bool}
    {kv : String × Bool} {fid : String} (h : kv.1 ≠ fid) :
    get_flag (applyChangeStep now acc kv).1 fid = get_flag acc.1 fid := by
  unfold applyChangeStep
  cases e : get_flag acc.1 kv.1 with
  | none => rfl
  | some f =>
      by_cases hs : (f.state != kv.2) = true
      · simp only [e, hs, if_true]
        exact get_flag_setFlagState_other (fun hh => h hh.symm)
      · simp [e, hs]

theorem get_flag_applyFold_absent (now : Int) :
    ∀ (changes : List (String × Bool)) (acc : FlagSystem × Bool) (fid : String),
      fid ∉ changes.map Prod.fst →
      get_flag (changes.foldl (applyChangeStep now) acc).1 fid = get_flag acc.1 fid := by
  intro changes
  induction changes with
  | nil => intro acc fid _; rfl
  | cons kv cs ih =>
      intro acc fid hmem
      simp only [List.map_cons, List.mem_cons, not_or] at hmem
      rw [List.foldl_cons, ih _ _ hmem.2]
      exact get_flag_applyChangeStep_other (fun hh => hmem.1 hh.symm)

theorem get_flag_applyFold (now : Int) :
    ∀ (changes : List (String × Bool)), (changes.map Prod.fst).Nodup →
    ∀ (acc : FlagSystem × Bool) (fid : String),
      get_flag (changes.foldl (applyChangeStep now) acc).1 fid =
        match lookupChange changes fid with
        | none => get_flag acc.1 fid
        | some v =>
            match get_flag acc.1 fid with
            | none => none
            | some f =>
                some (if f.state != v then
                  { f with state := v, last_state_change_time := some now }
                else f) := by
  intro changes
  induction changes with
  | nil => intro _ acc fid; rfl
  | cons kv cs ih =>
      intro hnd acc fid
      rw [List.map_cons, List.nodup_cons] at hnd
      rw [List.foldl_cons, lookupChange_cons]
      by_cases hk : kv.1 = fid
      · have hb : (kv.1 == fid) = true := beq_iff_eq.mpr hk
        simp only [hb, if_true]
        have habs : fid ∉ cs.map Prod.fst := hk ▸ hnd.1
        rw [get_flag_applyFold_absent now cs _ fid habs]
        unfold applyChangeStep
        cases e : get_flag acc.1 kv.1 with
        | none =>
            have e2 : get_flag acc.1 fid = none := hk ▸ e
            simp [e, e2]
        | some f =>
            have e2 : get_flag acc.1 fid = some f := hk ▸ e
            by_cases hs : (f.state != kv.2) = true
            · simp only [e, hs, if_true, e2, hk]
              rw [hk] at e
              rw [@get_flag_setFlagState_self now acc.1 fid kv.2 f e]
            · simp [e, hs, e2]
      · have hb : (kv.1 == fid) = false := beq_eq_false_iff_ne.mpr hk
        simp only [hb, if_false, Bool.false_eq_true]
        rw [ih hnd.2 _ fid, get_flag_applyChangeStep_other hk]

theorem scanOn_snd (sys : FlagSystem) (now : Int) (flag : Flag) (pend : List Pending) :
    (scanConditions sys now flag flag.on_conditions true pend).2 =
      immediate_want_on sys flag := by
  unfold scanConditions immediate_want_on
  cases flag.on_conditions.find? (fun c => check_condition sys c flag) with
  | none => rfl
  | some c => by_cases h : c.delay > 0 <;> simp [h]

theorem scanOff_snd (sys : FlagSystem) (now : Int) (flag : Flag) (pend : List Pending) :
    (scanConditions sys now flag flag.off_conditions false pend).2 =
      immediate_want_off sys flag := by
  unfold scanConditions immediate_want_off
  cases flag.off_conditions.find? (fun c => check_condition sys c flag) with
  | none => rfl
  | some c => by_cases h : c.delay > 0 <;> simp [h]

theorem evalLowerFlag_fst (sys : FlagSystem) (now : Int) (flag : Flag)
    (acc : List (String × Bool) × List Pending) :
    (evalLowerFlag sys now flag acc).1 =
      match flagDecision sys flag with
      | some v => dictAssign acc.1 flag.flag_id v
      | none => acc.1 := by
  unfold evalLowerFlag flagDecision
  simp only [scanOn_snd, scanOff_snd]
  by_cases h1 : (immediate_want_on sys flag && !flag.state) = true
  · simp [h1]
  · by_cases h2 : (immediate_want_off sys flag && flag.state) = true
    · simp [h1, h2]
    · simp [h1, h2]

theorem dictAssign_append {m : List (String × Bool)} {k : String} (v : Bool)
    (h : ∀ kv ∈ m, kv.1 ≠ k) : dictAssign m k v = m ++ [(k, v)] := by
  unfold dictAssign
  have hany : m.any (fun kv => kv.1 == k) = false :=
    List.any_eq_false.mpr (fun kv hkv => by simp [h kv hkv])
  simp [hany]

theorem lookupChange_dictAssign_self (m : List (String × Bool)) (k : String) (v : Bool) :
    lookupChange (dictAssign m k v) k = some v := by
  unfold dictAssign
  by_cases hany : m.any (fun kv => kv.1 == k) = true
  · simp only [hany, if_true]
    unfold lookupChange
    rw [find?_map_pred (g := fun kv => if kv.1 == k then (k, v) else kv)
      (fun kv => by by_cases h : (kv.1 == k) = true <;> simp [h])]
    have hsome : (m.find? (fun kv => kv.1 == k)).isSome := by
      rw [List.find?_isSome]
      exact List.any_eq_true.mp hany
    obtain ⟨kv0, e⟩ := Option.isSome_iff_exists.mp hsome
    have hp0 := List.find?_some
      (show List.find? (fun kv : String × Bool => kv.1 == k) m = some kv0 from e)
    have hp1 : kv0.1 = k := beq_iff_eq.mp hp0
    rw [e]
    simp [hp1]
  · have hany2 : m.any (fun kv => kv.1 == k) = false := by
      cases h2 : m.any (fun kv => kv.1 == k) with
      | true => exact absurd h2 hany
      | false => rfl
    simp only [hany2, if_false, Bool.false_eq_true]
    unfold lookupChange
    have hnone : m.find? (fun kv => kv.1 == k) = none := by
      rw [List.find?_eq_none]
      exact List.any_eq_false.mp hany2
    rw [List.find?_append, hnone]
    simp

theorem lookupChange_dictAssign_other {m : List (String × Bool)} {k k2 : String}
    (v : Bool) (h : k2 ≠ k) :
    lookupChange (dictAssign m k v) k2 = lookupChange m k2 := by
  unfold dictAssign
  by_cases hany : m.any (fun kv => kv.1 == k) = true
  · simp only [hany, if_true]
    unfold lookupChange
    rw [find?_map_pred (g := fun kv => if kv.1 == k then (k, v) else kv)
      (fun kv => by
        by_cases hh : (kv.1 == k) = true
        · have : kv.1 = k := beq_iff_eq.mp hh
          simp [hh, this, beq_eq_false_iff_ne.mpr (fun he => h he.symm),
            beq_eq_false_iff_ne.mpr (fun he : kv.1 = k2 => h (this ▸ he).symm)]
        · simp [hh])]
    cases e : m.find? (fun kv => kv.1 == k2) with
    | none => rfl
    | some kv0 =>
        have hp0 := List.find?_some
          (show List.find? (fun kv : String × Bool => kv.1 == k2) m = some kv0 from e)
        have hp : kv0.1 = k2 := by simpa using hp0
        have hne : kv0.1 ≠ k := by
          intro he
          exact h (hp.symm.trans he)
        simp [hne]
  · simp only [hany, if_false, Bool.false_eq_true]
    unfold lookupChange
    rw [List.find?_append]
    cases e : m.find? (fun kv => kv.1 == k2) with
    | none => simp [beq_eq_false_iff_ne.mpr (fun he : k = k2 => h he.symm)]
    | some kv0 => simp

theorem dictAssign_keys_nodup {m : List (String × Bool)} {k : String} (v : Bool)
    (h : (m.map Prod.fst).Nodup) :
    ((dictAssign m k v).map Prod.fst).Nodup := by
  unfold dictAssign
  by_cases hany : m.any (fun kv => kv.1 == k) = true
  · simp only [hany, if_true]
    have : (m.map (fun kv => if kv.1 == k then (k, v) else kv)).map Prod.fst
        = m.map Prod.fst := by
      rw [List.map_map]
      apply List.map_congr_left
      intro kv _
      by_cases hh : (kv.1 == k) = true
      · have : kv.1 = k := beq_iff_eq.mp hh
        simp [Function.comp, hh, this]
      · simp [Function.comp, hh]
    rw [this]
    exact h
  · simp only [hany, if_false, Bool.false_eq_true]
    rw [List.map_append]
    rw [List.nodup_append]
    refine ⟨h, by simp, ?_⟩
    intro x hx hx2
    simp only [List.map_cons, List.map_nil, List.mem_singleton] at hx2
    rw [hx2] at hx
    obtain ⟨kv0, hkv0, he⟩ := List.mem_map.mp hx
    have hany3 : m.any (fun kv => kv.1 == k) = false := by
      cases h2 : m.any (fun kv => kv.1 == k) with
      | true => exact absurd h2 hany
      | false => rfl
    exact List.any_eq_false.mp hany3 kv0 hkv0 (by simp [he])

theorem evalFold_lookup_other (sys : FlagSystem) (now : Int) :
    ∀ (L : List Flag) (acc : List (String × Bool) × List Pending) (k : String),
      (∀ g ∈ L, g.flag_id ≠ k) →
      lookupChange (L.foldl (fun a flag => evalLowerFlag sys now flag a) acc).1 k =
        lookupChange acc.1 k := by
  intro L
  induction L with
  | nil => intro acc k _; rfl
  | cons g T ih =>
      intro acc k hne
      rw [List.foldl_cons, ih _ k (fun x hx => hne x (List.mem_cons_of_mem g hx))]
      rw [evalLowerFlag_fst]
      cases flagDecision sys g with
      | none => rfl
      | some v =>
          exact lookupChange_dictAssign_other v (fun he => hne g (List.mem_cons_self g T) he.symm)

theorem evalFold_lookup_self (sys : FlagSystem) (now : Int) :
    ∀ (L : List Flag) (acc : List (String × Bool) × List Pending) (f : Flag) (v : Bool),
      f ∈ L → (L.map Flag.flag_id).Nodup →
      flagDecision sys f = some v →
      lookupChange (L.foldl (fun a flag => evalLowerFlag sys now flag a) acc).1 f.flag_id =
        some v := by
  intro L
  induction L with
  | nil => intro _ _ _ h; cases h
  | cons g T ih =>
      intro acc f v hmem hnd hdec
      rw [List.map_cons, List.nodup_cons] at hnd
      rw [List.foldl_cons]
      rcases List.mem_cons.mp hmem with he | hT
      · subst he
        have hother : ∀ x ∈ T, x.flag_id ≠ f.flag_id := by
          intro x hx hexy
          exact hnd.1 (hexy ▸ List.mem_map_of_mem Flag.flag_id hx)
        rw [evalFold_lookup_other sys now T _ f.flag_id hother]
        rw [evalLowerFlag_fst, hdec]
        exact lookupChange_dictAssign_self acc.1 f.flag_id v
      · exact ih _ f v hT hnd.2 hdec

theorem evalFold_keys_nodup (sys : FlagSystem) (now : Int) :
    ∀ (L : List Flag) (acc : List (String × Bool) × List Pending),
      ((acc.1).map Prod.fst).Nodup →
      (((L.foldl (fun a flag => evalLowerFlag sys now flag a) acc).1).map Prod.fst).Nodup := by
  intro L
  induction L with
  | nil => intro acc h; exact h
  | cons g T ih =>
      intro acc h
      rw [List.foldl_cons]
      apply ih
      rw [evalLowerFlag_fst]
      cases flagDecision sys g with
      | none => exact h
      | some v => exact dictAssign_keys_nodup v h

theorem lookupChange_append_of_isSome {m : List (String × Bool)} (m2 : List (String × Bool))
    {k : String} (h : (lookupChange m k).isSome) :
    lookupChange (m ++ m2) k = lookupChange m k := by
  unfold lookupChange at h ⊢
  rw [List.find?_append]
  cases e : m.find? (fun kv => kv.1 == k) with
  | none => rw [e] at h; simp at h
  | some kv0 => simp

theorem foldReadyStep_elim (acc : List (String × Bool) × List Pending) (p : Pending) :
    ((if p.ready then
        ((if (lookupChange acc.1 p.flag_id).isSome then acc.1
          else acc.1 ++ [(p.flag_id, p.should_activate)]),
         acc.2 ++ [{ p with ready := false }])
      else
        (acc.1, acc.2 ++ [p])) : List (String × Bool) × List Pending).1 =
      (if p.ready && !(lookupChange acc.1 p.flag_id).isSome then
        acc.1 ++ [(p.flag_id, p.should_activate)]
      else acc.1) := by
  by_cases hr : p.ready = true
  · by_cases hs : (lookupChange acc.1 p.flag_id).isSome = true <;> simp [hr, hs]
  · simp [hr]

theorem foldReadyFold_lookup :
    ∀ (ps : List Pending) (acc : List (String × Bool) × List Pending) (k : String),
      (lookupChange acc.1 k).isSome →
      lookupChange
        (ps.foldl (fun a p =>
          if p.ready then
            ((if (lookupChange a.1 p.flag_id).isSome then a.1
              else a.1 ++ [(p.flag_id, p.should_activate)]),
             a.2 ++ [{ p with ready := false }])
          else
            (a.1, a.2 ++ [p])) acc).1 k = lookupChange acc.1 k := by
  intro ps
  induction ps with
  | nil => intro acc k _; rfl
  | cons p T ih =>
      intro acc k hk
      rw [List.foldl_cons]
      by_cases hr : p.ready = true
      · by_cases hs : (lookupChange acc.1 p.flag_id).isSome = true
        · simp only [hr, if_true, hs]
          exact ih _ k hk
        · simp only [hr, if_true, hs, if_false, Bool.false_eq_true]
          have hne : k ≠ p.flag_id := by
            intro he
            rw [he] at hk
            exact hs hk
          have hpre : lookupChange (acc.1 ++ [(p.flag_id, p.should_activate)]) k =
              lookupChange acc.1 k := lookupChange_append_of_isSome _ hk
          rw [ih _ k (by rw [hpre]; exact hk), hpre]
      · simp only [hr, if_false, Bool.false_eq_true]
        exact ih _ k hk

theorem foldReady_lookup (ch : List (String × Bool)) (ps : List Pending) (k : String)
    (h : (lookupChange ch k).isSome) :
    lookupChange (foldReadyPendings ch ps).1 k = lookupChange ch k :=
  foldReadyFold_lookup ps (ch, []) k h

theorem lookupChange_append_none {m : List (String × Bool)} {k k2 : String} (v : Bool)
    (hne : k ≠ k2) (h : lookupChange m k = none) :
    lookupChange (m ++ [(k2, v)]) k = none := by
  unfold lookupChange at h ⊢
  rw [List.find?_append]
  cases e : m.find? (fun kv => kv.1 == k) with
  | some kv0 => rw [e] at h; simp at h
  | none => simp [beq_eq_false_iff_ne.mpr (fun he : k2 = k => hne he.symm)]

theorem foldReadyFold_keys_nodup :
    ∀ (ps : List Pending) (acc : List (String × Bool) × List Pending),
      ((acc.1).map Prod.fst).Nodup →
      (((ps.foldl (fun a p =>
          if p.ready then
            ((if (lookupChange a.1 p.flag_id).isSome then a.1
              else a.1 ++ [(p.flag_id, p.should_activate)]),
             a.2 ++ [{ p with ready := false }])
          else
            (a.1, a.2 ++ [p])) acc).1).map Prod.fst).Nodup := by
  intro ps
  induction ps with
  | nil => intro acc h; exact h
  | cons p T ih =>
      intro acc h
      rw [List.foldl_cons]
      by_cases hr : p.ready = true
      · by_cases hs : (lookupChange acc.1 p.flag_id).isSome = true
        · simp only [hr, if_true, hs]
          exact ih _ h
        · simp only [hr, if_true, hs, if_false, Bool.false_eq_true]
          apply ih
          rw [List.map_append, List.nodup_append]
          refine ⟨h, by simp, ?_⟩
          intro x hx hx2
          simp only [List.map_cons, List.map_nil, List.mem_singleton] at hx2
          rw [hx2] at hx
          obtain ⟨kv0, hkv0, he⟩ := List.mem_map.mp hx
          have hsome2 : (lookupChange acc.1 p.flag_id).isSome := by
            unfold lookupChange
            cases e : acc.1.find? (fun kv => kv.1 == p.flag_id) with
            | some kv1 => simp
            | none =>
                rw [List.find?_eq_none] at e
                exact absurd (by simp [he] : (kv0.1 == p.flag_id) = true) (e kv0 hkv0)
          exact hs hsome2
      · simp only [hr, if_false, Bool.false_eq_true]
        exact ih _ h

theorem foldReady_keys_nodup (ch : List (String × Bool)) (ps : List Pending)
    (h : (ch.map Prod.fst).Nodup) :
    (((foldReadyPendings ch ps).1).map Prod.fst).Nodup :=
  foldReadyFold_keys_nodup ps (ch, []) h

theorem foldReadyFold_unready :
    ∀ (ps : List Pending), (∀ p ∈ ps, p.ready = false) →
    ∀ (ch : List (String × Bool)) (done : List Pending),
      (ps.foldl (fun a p =>
          if p.ready then
            ((if (lookupChange a.1 p.flag_id).isSome then a.1
              else a.1 ++ [(p.flag_id, p.should_activate)]),
             a.2 ++ [{ p with ready := false }])
          else
            (a.1, a.2 ++ [p])) (ch, done)) = (ch, done ++ ps) := by
  intro ps
  induction ps with
  | nil => intro _ ch done; simp
  | cons p T ih =>
      intro h ch done
      rw [List.foldl_cons]
      have hp : p.ready = false := h p (List.mem_cons_self p T)
      simp only [hp, if_false, Bool.false_eq_true]
      rw [ih (fun q hq => h q (List.mem_cons_of_mem p hq)) ch (done ++ [p])]
      rw [List.append_assoc]
      rfl

theorem foldReady_unready (ch : List (String × Bool)) (ps : List Pending)
    (h : ∀ p ∈ ps, p.ready = false) :
    foldReadyPendings ch ps = (ch, ps) := by
  unfold foldReadyPendings
  rw [foldReadyFold_unready ps h ch []]
  rfl

theorem find?_id_of_mem : ∀ (l : List Flag), (l.map Flag.flag_id).Nodup →
    ∀ f ∈ l, l.find? (fun g => g.flag_id == f.flag_id) = some f := by
  intro l
  induction l with
  | nil => intro _ f h; cases h
  | cons g T ih =>
      intro hnd f hmem
      rw [List.map_cons, List.nodup_cons] at hnd
      rw [List.find?_cons]
      rcases List.mem_cons.mp hmem with he | hT
      · subst he
        simp
      · have hne : g.flag_id ≠ f.flag_id := by
          intro he2
          exact hnd.1 (he2 ▸ List.mem_map_of_mem Flag.flag_id hT)
        simp only [beq_eq_false_iff_ne.mpr hne]
        exact ih hnd.2 f hT

theorem get_flag_of_mem {sys : FlagSystem} (hnd : (sys.all_flags.map Flag.flag_id).Nodup)
    {f : Flag} (hf : f ∈ sys.all_flags) : get_flag sys f.flag_id = some f :=
  find?_id_of_mem sys.all_flags hnd f hf

theorem evalFold_changes_none (sys : FlagSystem) (now : Int) :
    ∀ (L : List Flag) (acc : List (String × Bool) × List Pending),
      (∀ g ∈ L, flagDecision sys g = none) →
      (L.foldl (fun a flag => evalLowerFlag sys now flag a) acc).1 = acc.1 := by
  intro L
  induction L with
  | nil => intro acc _; rfl
  | cons g T ih =>
      intro acc h
      rw [List.foldl_cons, ih _ (fun q hq => h q (List.mem_cons_of_mem g hq))]
      rw [evalLowerFlag_fst, h g (List.mem_cons_self g T)]

theorem schedule_unready {ps : List Pending} (h : ∀ p ∈ ps, p.ready = false)
    (fid : String) (b : Bool) (d now : Int) :
    ∀ p ∈ schedule_condition ps fid b d now, p.ready = false := by
  unfold schedule_condition
  split
  · exact h
  · intro p hp
    rcases List.mem_append.mp hp with h1 | h2
    · exact h p h1
    · simp only [List.mem_singleton] at h2
      rw [h2]

theorem scan_unready {sys : FlagSystem} {now : Int} {flag : Flag}
    {cs : List FlagCondition} {ts : Bool} {pend : List Pending}
    (h : ∀ p ∈ pend, p.ready = false) :
    ∀ p ∈ (scanConditions sys now flag cs ts pend).1, p.ready = false := by
  unfold scanConditions
  cases cs.find? (fun c => check_condition sys c flag) with
  | none => exact h
  | some c =>
      by_cases hd : c.delay > 0
      · simp only [hd, if_true]
        exact schedule_unready h flag.flag_id ts c.delay now
      · simp only [hd, if_false]
        exact h

theorem evalLowerFlag_snd (sys : FlagSystem) (now : Int) (flag : Flag)
    (acc : List (String × Bool) × List Pending) :
    (evalLowerFlag sys now flag acc).2 =
      (scanConditions sys now flag flag.off_conditions false
        ((scanConditions sys now flag flag.on_conditions true acc.2).1)).1 := by
  unfold evalLowerFlag
  by_cases h1 : ((scanConditions sys now flag flag.on_conditions true acc.2).2
      && !flag.state) = true
  · simp [h1]
  · by_cases h2 : ((scanConditions sys now flag flag.off_conditions false
        ((scanConditions sys now flag flag.on_conditions true acc.2).1)).2
        && flag.state) = true
    · simp [h1, h2]
    · simp [h1, h2]

theorem evalFold_unready (sys : FlagSystem) (now : Int) :
    ∀ (L : List Flag) (acc : List (String × Bool) × List Pending),
      (∀ p ∈ acc.2, p.ready = false) →
      ∀ p ∈ (L.foldl (fun a flag => evalLowerFlag sys now flag a) acc).2, p.ready = false := by
  intro L
  induction L with
  | nil => intro acc h; exact h
  | cons g T ih =>
      intro acc h
      rw [List.foldl_cons]
      apply ih
      rw [evalLowerFlag_snd]
      exact scan_unready (scan_unready h)

theorem mark_ready_id {now : Int} {sys : FlagSystem}
    (h : ∀ p ∈ sys.pending_conditions, now < p.time) :
    mark_ready now sys = sys := by
  unfold mark_ready
  have h2 : ∀ p ∈ sys.pending_conditions,
      (fun p : Pending =>
        if now ≥ p.time && (get_flag sys p.flag_id).isSome then { p with ready := true }
        else p) p = (fun p : Pending => p) p := by
    intro p hp
    have hlt : ¬(now ≥ p.time) := not_le.mpr (h p hp)
    simp [hlt]
  rw [List.map_congr_left h2, List.map_id']

theorem update_upper_id {now : Int} {sys : FlagSystem}
    (h : ∀ u ∈ upper_flags sys, u.state = upper_should_be_on sys u) :
    update_upper_flags_from_lower now sys = (sys, false) := by
  unfold update_upper_flags_from_lower
  have hmap : ∀ f ∈ sys.all_flags,
      (fun f : Flag =>
        if f.flag_type == "upper" then
          if f.state != upper_should_be_on sys f then
            { f with state := upper_should_be_on sys f,
                     last_state_change_time := some now }
          else f
        else f) f = (fun f : Flag => f) f := by
    intro f hf
    by_cases ht : (f.flag_type == "upper") = true
    · have hu : f ∈ upper_flags sys := List.mem_filter.mpr ⟨hf, ht⟩
      have := h f hu
      simp [ht, this]
    · simp [ht]
  have hany : (upper_flags sys).any (fun f => f.state != upper_should_be_on sys f) = false := by
    rw [List.any_eq_false]
    intro u hu
    simp [h u hu]
  rw [List.map_congr_left hmap, List.map_id', hany]

theorem get_flag_apply_pending_changes (now : Int) (sys : FlagSystem)
    (changes : List (String × Bool)) (hnd : (changes.map Prod.fst).Nodup) (fid : String) :
    get_flag (apply_pending_changes now sys changes).1 fid =
      match lookupChange changes fid with
      | none => get_flag sys fid
      | some v =>
          match get_flag sys fid with
          | none => none
          | some f =>
              some (if f.state != v then
                { f with state := v, last_state_change_time := some now }
              else f) :=
  get_flag_applyFold now changes hnd (sys, false) fid

/-! ### Claim theorems -/

/-- C1, counterexample: the lower flag `L` of `sysBoth` is ON and both its
want_on and its want_off resolve true (as zero-delay immediate decisions,
in this and in every pass of the tick), yet the tick at time 0 resolves the
flag to `true`, not `false`: off does not win for a currently-on flag
meeting the claimed conflict in this system state. -/
theorem claim1_counterexample :
    immediate_want_on sysBoth lowBoth = true ∧
    immediate_want_off sysBoth lowBoth = true ∧
    lowBoth.state = true ∧
    (get_flag (stabilize_state 0 sysBoth) "L").map Flag.state = some true := by
  refine ⟨by decide, by decide, by decide, by decide⟩

/-- C1, amended: when both want_on and want_off resolve true as immediate
(zero-delay) decisions for the same Lower flag in the same pass, the
`if`/`elif` state guard makes the pass toggle the flag: a currently-on
flag turns off (off wins only there) and a currently-off flag turns on. -/
theorem claim1_theorem (now : Int) (sys : FlagSystem) (f : Flag)
    (hnd : (sys.all_flags.map Flag.flag_id).Nodup)
    (hmem : f ∈ lower_flags sys)
    (hon : immediate_want_on sys f = true)
    (hoff : immediate_want_off sys f = true) :
    (get_flag (stabilizeIteration now sys).1 f.flag_id).map Flag.state =
      some (!f.state) := by
  have hdec : flagDecision sys f = some (!f.state) := by
    cases hs : f.state with
    | false => simp [flagDecision, hon, hs]
    | true => simp [flagDecision, hon, hoff, hs]
  have hndl : ((lower_flags sys).map Flag.flag_id).Nodup :=
    ((List.filter_sublist sys.all_flags).map Flag.flag_id).nodup hnd
  have h1 : lookupChange (evalLowers sys now).1 f.flag_id = some (!f.state) :=
    evalFold_lookup_self sys now (lower_flags sys) ([], sys.pending_conditions)
      f (!f.state) hmem hndl hdec
  have h1nd : ((evalLowers sys now).1.map Prod.fst).Nodup :=
    evalFold_keys_nodup sys now (lower_flags sys) ([], sys.pending_conditions) (by simp)
  have h2 : lookupChange
      (foldReadyPendings (evalLowers sys now).1 (evalLowers sys now).2).1 f.flag_id =
      some (!f.state) := by
    rw [foldReady_lookup (evalLowers sys now).1 (evalLowers sys now).2 f.flag_id
      (by rw [h1]; rfl)]
    exact h1
  have h2nd : (((foldReadyPendings (evalLowers sys now).1
      (evalLowers sys now).2).1).map Prod.fst).Nodup :=
    foldReady_keys_nodup _ _ h1nd
  have hmemall : f ∈ sys.all_flags := (List.mem_filter.mp hmem).1
  have hft : (f.flag_type == "upper") = false := by
    have h3 := (List.mem_filter.mp hmem).2
    simpa using h3
  have hg : get_flag
      { sys with pending_conditions :=
          (foldReadyPendings (evalLowers sys now).1 (evalLowers sys now).2).2 }
      f.flag_id = some f :=
    get_flag_of_mem hnd hmemall
  have hS2 := get_flag_apply_pending_changes now
      { sys with pending_conditions :=
          (foldReadyPendings (evalLowers sys now).1 (evalLowers sys now).2).2 }
      (foldReadyPendings (evalLowers sys now).1 (evalLowers sys now).2).1 h2nd f.flag_id
  rw [h2, hg] at hS2
  have hbne : (f.state != !f.state) = true := by cases f.state <;> rfl
  simp only [hbne, if_true] at hS2
  rw [stabilizeIteration_fst, get_flag_update_upper, hS2]
  simp [beq_eq_false_iff_ne.mp hft]

/-- C1, witness for the amended theorem: in `sysBoth` the currently-on
flag `L` with both wants true is toggled off by one pass. -/
theorem claim1_witness :
    (get_flag (stabilizeIteration 0 sysBoth).1 lowBoth.flag_id).map Flag.state =
      some (!lowBoth.state) :=
  claim1_theorem 0 sysBoth lowBoth (by decide) (by decide) (by decide) (by decide)

/-- C2: the code violates the claim.  In `sysPend` the pending transition
is due at the tick at time 0 and is folded into that tick's decisions,
but it is not removed: the `remaining_pending` rebuild keeps every entry,
so the same entry is still present after the tick, and the next tick
(time 1, no new facts) re-marks it ready and re-fires it — the flag's
`last_state_change_time` is re-stamped to 1 although the claim says the
entry must have been discarded after the first tick. -/
theorem claim2_theorem :
    (stabilize_state 0 sysPend).pending_conditions =
      [{ flag_id := "L", should_activate := true, delay := 5, time := 0, ready := false }] ∧
    (get_flag (stabilize_state 0 sysPend) "L").map Flag.state = some false ∧
    (get_flag (stabilize_state 1 (stabilize_state 0 sysPend)) "L").map
      Flag.last_state_change_time = some (some 1) := by
  refine ⟨by decide, by decide, by decide⟩

theorem stabilizeLoop_succ_of_stable (now : Int) (sys s1 : FlagSystem)
    (h : stabilizeIteration now sys = (s1, false)) (fuel : Nat) :
    stabilizeLoop now (fuel + 1) sys = s1 := by
  simp [stabilizeLoop, h]

/-- C5, counterexample: in `sysLater` the fact store is empty and never
changes; the tick at time 0 completes with `L` off, yet the next tick at
time 10 — with no new facts in between — turns `L` on, because the
pending transition scheduled for time 5 comes due.  One further tick does
not leave every flag state unchanged. -/
theorem claim5_counterexample :
    (get_flag (stabilize_state 0 sysLater) "L").map Flag.state = some false ∧
    (get_flag (stabilize_state 10 (stabilize_state 0 sysLater)) "L").map Flag.state =
      some true := by
  refine ⟨by decide, by decide⟩

/-- C5, amended: a stabilization tick with no new facts leaves every
flag's state (indeed the whole flag list) unchanged PROVIDED no pending
transition is ready-marked or due at the tick's time and the system is at
the fixed point a completed converged tick leaves behind: every Lower
flag's immediate evaluation re-affirms its current state and every Upper
flag already equals the OR of its linked Lower flags. -/
theorem claim5_theorem (now : Int) (sys : FlagSystem)
    (hp : ∀ p ∈ sys.pending_conditions, p.ready = false ∧ now < p.time)
    (hlow : ∀ f ∈ lower_flags sys, flagDecision sys f = none)
    (hup : ∀ u ∈ upper_flags sys, u.state = upper_should_be_on sys u) :
    (stabilize_state now sys).all_flags = sys.all_flags := by
  unfold stabilize_state
  rw [mark_ready_id (fun p hpp => (hp p hpp).2)]
  have hch0 : (evalLowers sys now).1 = [] :=
    evalFold_changes_none sys now (lower_flags sys) ([], sys.pending_conditions) hlow
  have hunr : ∀ p ∈ (evalLowers sys now).2, p.ready = false :=
    evalFold_unready sys now (lower_flags sys) ([], sys.pending_conditions)
      (fun p hpp => (hp p hpp).1)
  have hfold : foldReadyPendings (evalLowers sys now).1 (evalLowers sys now).2 =
      ((evalLowers sys now).1, (evalLowers sys now).2) :=
    foldReady_unready _ _ hunr
  have hiter : stabilizeIteration now sys =
      ({ sys with pending_conditions := (evalLowers sys now).2 }, false) := by
    unfold stabilizeIteration
    simp only [hfold]
    simp only [hch0]
    rw [show apply_pending_changes now
        { sys with pending_conditions := (evalLowers sys now).2 } [] =
        ({ sys with pending_conditions := (evalLowers sys now).2 }, false) from rfl]
    rw [@update_upper_id now ({ sys with pending_conditions := (evalLowers sys now).2 }) hup]
    rfl
  have h100 : stabilizeLoop now max_iterations sys =
      { sys with pending_conditions := (evalLowers sys now).2 } :=
    stabilizeLoop_succ_of_stable now sys _ hiter 99
  rw [h100]

/-- C5, witness for the amended theorem: `sysStable` satisfies all three
stability hypotheses at time 0 and a tick leaves its flags untouched. -/
theorem claim5_witness :
    (stabilize_state 0 sysStable).all_flags = sysStable.all_flags :=
  claim5_theorem 0 sysStable (by decide) (by decide) (by decide)

/-- C4: at the end of every stabilization tick, every Upper flag's state
equals the OR over its linked lower ids of the current states of the
Lower flags that exist (false when none do): the tick's final pass always
ends with the upper aggregation step, which establishes this fixed point
on both exit paths of the loop. -/
theorem claim4_theorem (now : Int) (sys : FlagSystem) :
    ∀ f ∈ upper_flags (stabilize_state now sys),
      f.state = upper_should_be_on (stabilize_state now sys) f := by
  unfold stabilize_state
  exact stabilizeLoop_inv now
    (P := fun S => ∀ f ∈ upper_flags S, f.state = upper_should_be_on S f)
    (fun s => by
      rw [stabilizeIteration_fst]
      exact update_upper_establishes now _)
    99 (mark_ready now sys)

/-- C4, witness: in the stabilized `sysStable` the upper flag `U` is
present and equals the OR over its linked lower flag. -/
theorem claim4_witness :
    upLink ∈ upper_flags (stabilize_state 0 sysStable) ∧
    upLink.state = upper_should_be_on (stabilize_state 0 sysStable) upLink :=
  ⟨by decide, claim4_theorem 0 sysStable upLink (by decide)⟩

/-- C6: serialize→deserialize preserves `priority` (null vs each integer,
`data.get` conflating absent and null notwithstanding, since `to_dict`
always writes the key), `state` and `last_state_change_time` exactly, and
serialize→deserialize→serialize is the identity on serializations — for
every flag, upper, lower or otherwise. -/
theorem claim6_theorem (f : Flag) :
    (Flag.from_dict f.to_dict).priority = f.priority ∧
    (Flag.from_dict f.to_dict).state = f.state ∧
    (Flag.from_dict f.to_dict).last_state_change_time = f.last_state_change_time ∧
    (Flag.from_dict f.to_dict).to_dict = f.to_dict := by
  have hact : ∀ l : List FlagAction,
      (l.map FlagAction.to_dict).map FlagAction.from_dict = l := by
    intro l
    rw [List.map_map]
    exact List.map_id'' (fun a => rfl) l
  have hcond : ∀ l : List FlagCondition,
      (l.map FlagCondition.to_dict).map FlagCondition.from_dict = l := by
    intro l
    rw [List.map_map]
    exact List.map_id'' (fun c => rfl) l
  by_cases hu : (f.flag_type == "upper") = true
  · have hu2 : f.flag_type = "upper" := beq_iff_eq.mp hu
    have hl : (f.flag_type == "lower") = false := by rw [hu2]; decide
    simp [Flag.to_dict, Flag.from_dict, hu, hl, hu2, hact, hcond]
  · by_cases hl : (f.flag_type == "lower") = true
    · have hl2 : f.flag_type = "lower" := beq_iff_eq.mp hl
      simp [Flag.to_dict, Flag.from_dict, hu, hl, hl2, hact, hcond]
    · simp [Flag.to_dict, Flag.from_dict, hu, hl, hact, hcond]

/-- C7: scheduling a pending transition for a (flag_id, target_state) pair
that is already pending is a no-op — the list is returned unchanged, so no
second entry is added and the existing entry keeps its ready time — and
scheduling preserves at-most-one-entry-per-pair uniqueness. -/
theorem claim7_theorem (ps : List Pending) (fid : String) (b : Bool) (d now : Int) :
    ((∃ p ∈ ps, p.flag_id = fid ∧ p.should_activate = b) →
        schedule_condition ps fid b d now = ps) ∧
    (pendingPairUnique ps → pendingPairUnique (schedule_condition ps fid b d now)) := by
  constructor
  · rintro ⟨p, hp, h1, h2⟩
    unfold schedule_condition
    have hany : ps.any (fun q => q.flag_id == fid && q.should_activate == b) = true :=
      List.any_eq_true.mpr ⟨p, hp, by simp [h1, h2]⟩
    simp [hany]
  · intro hu
    unfold schedule_condition
    by_cases hany : ps.any (fun q => q.flag_id == fid && q.should_activate == b) = true
    · simp only [hany, if_true]
      exact hu
    · simp only [hany, if_false, Bool.false_eq_true]
      unfold pendingPairUnique at hu ⊢
      rw [List.pairwise_append]
      refine ⟨hu, List.pairwise_singleton _ _, ?_⟩
      intro p hp q hq
      simp only [List.mem_singleton] at hq
      subst hq
      rintro ⟨he1, he2⟩
      have hany2 : ps.any (fun q => q.flag_id == fid && q.should_activate == b) = false := by
        cases h2 : ps.any (fun q => q.flag_id == fid && q.should_activate == b) with
        | true => exact absurd h2 hany
        | false => rfl
      exact List.any_eq_false.mp hany2 p hp (by simp [he1, he2])

/-- C7, witness: re-scheduling the already-pending (L, on) pair of
`sysPend` is a no-op and keeps per-pair uniqueness. -/
theorem claim7_witness :
    schedule_condition sysPend.pending_conditions "L" true 7 0 =
      sysPend.pending_conditions ∧
    pendingPairUnique (schedule_condition sysPend.pending_conditions "L" true 7 0) :=
  ⟨(claim7_theorem sysPend.pending_conditions "L" true 7 0).1 (by decide),
   (claim7_theorem sysPend.pending_conditions "L" true 7 0).2
     (by unfold pendingPairUnique; decide)⟩

/-- C8: a condition of unrecognized kind evaluates to false against every
system state (the evaluator is total, so no error is possible), and a
flag-reference condition — the recognized kinds with a required param —
whose `flag_id` param is missing evaluates to false. -/
theorem claim8_theorem :
    (∀ (sys : FlagSystem) (c : FlagCondition) (flag : Flag),
        c.condition_type ∉ knownConditionKinds → check_condition sys c flag = false) ∧
    (∀ (sys : FlagSystem) (c : FlagCondition) (flag : Flag),
        (c.condition_type = "다른 플래그 켜짐" ∨ c.condition_type = "다른 플래그 꺼짐") →
        pget c.params "flag_id" = none → check_condition sys c flag = false) := by
  constructor
  · intro sys c flag h
    simp only [knownConditionKinds, List.mem_cons, List.mem_singleton, not_or,
      List.not_mem_nil] at h
    obtain ⟨h1, h2, h3, h4, h5, h6, h7, h8, h9, h10,
      h11, h12, h13, h14, h15, h16, h17, h18, -⟩ := h
    simp [check_condition,
      beq_eq_false_iff_ne.mpr h1, beq_eq_false_iff_ne.mpr h2,
      beq_eq_false_iff_ne.mpr h3, beq_eq_false_iff_ne.mpr h4,
      beq_eq_false_iff_ne.mpr h5, beq_eq_false_iff_ne.mpr h6,
      beq_eq_false_iff_ne.mpr h7, beq_eq_false_iff_ne.mpr h8,
      beq_eq_false_iff_ne.mpr h9, beq_eq_false_iff_ne.mpr h10,
      beq_eq_false_iff_ne.mpr h11, beq_eq_false_iff_ne.mpr h12,
      beq_eq_false_iff_ne.mpr h13, beq_eq_false_iff_ne.mpr h14,
      beq_eq_false_iff_ne.mpr h15, beq_eq_false_iff_ne.mpr h16,
      beq_eq_false_iff_ne.mpr h17, beq_eq_false_iff_ne.mpr h18]
  · intro sys c flag hk hnone
    rcases hk with h | h
    · simp [check_condition, h, hnone]
    · simp [check_condition, h, hnone]

/-- C8, witness: an unknown kind, and a flag-reference condition without
its `flag_id` param, both evaluate to false in the concrete `sysPend`. -/
theorem claim8_witness :
    check_condition sysPend
      { condition_type := "정체불명 조건", params := [], delay := 0 } lowOff = false ∧
    check_condition sysPend
      { condition_type := "다른 플래그 켜짐", params := [], delay := 0 } lowOff = false :=
  ⟨claim8_theorem.1 sysPend
      { condition_type := "정체불명 조건", params := [], delay := 0 } lowOff (by decide),
   claim8_theorem.2 sysPend
      { condition_type := "다른 플래그 켜짐", params := [], delay := 0 } lowOff
      (Or.inl rfl) (by decide)⟩

/-- C9: the two commit sites of a stabilization pass — the lower-flag
change application and the upper-flag aggregation — update a flag's
`last_state_change_time` only on an actual transition: whenever a flag's
state is the same after the commit, its change time is also the same. -/
theorem claim9_theorem :
    (∀ (now : Int) (sys : FlagSystem) (changes : List (String × Bool)) (fid : String),
        (changes.map Prod.fst).Nodup →
        (get_flag (apply_pending_changes now sys changes).1 fid).map Flag.state =
          (get_flag sys fid).map Flag.state →
        (get_flag (apply_pending_changes now sys changes).1 fid).map
            Flag.last_state_change_time =
          (get_flag sys fid).map Flag.last_state_change_time) ∧
    (∀ (now : Int) (sys : FlagSystem) (fid : String),
        (get_flag (update_upper_flags_from_lower now sys).1 fid).map Flag.state =
          (get_flag sys fid).map Flag.state →
        (get_flag (update_upper_flags_from_lower now sys).1 fid).map
            Flag.last_state_change_time =
          (get_flag sys fid).map Flag.last_state_change_time) := by
  constructor
  · intro now sys changes fid hnd hstate
    cases hl : lookupChange changes fid with
    | none =>
        have hm2 : get_flag (apply_pending_changes now sys changes).1 fid =
            get_flag sys fid := by
          rw [get_flag_apply_pending_changes now sys changes hnd fid, hl]
        rw [hm2]
    | some v =>
        cases hg : get_flag sys fid with
        | none =>
            have hm2 : get_flag (apply_pending_changes now sys changes).1 fid = none := by
              rw [get_flag_apply_pending_changes now sys changes hnd fid, hl, hg]
            rw [hm2]
        | some f =>
            have hm2 : get_flag (apply_pending_changes now sys changes).1 fid =
                some (if f.state != v then
                  { f with state := v, last_state_change_time := some now }
                else f) := by
              rw [get_flag_apply_pending_changes now sys changes hnd fid, hl, hg]
            rw [hm2, hg] at hstate
            rw [hm2]
            by_cases hs : (f.state != v) = true
            · exfalso
              simp only [hs, if_true, Option.map_some'] at hstate
              have hv : v = f.state := by simpa using hstate
              rw [hv] at hs
              simp at hs
            · simp [hs]
  · intro now sys fid hstate
    cases hg : get_flag sys fid with
    | none =>
        have hm2 : get_flag (update_upper_flags_from_lower now sys).1 fid = none := by
          rw [get_flag_update_upper now sys fid, hg]
          rfl
        rw [hm2]
    | some f =>
        have hm2 : get_flag (update_upper_flags_from_lower now sys).1 fid =
            some (if f.flag_type == "upper" then
              if f.state != upper_should_be_on sys f then
                { f with state := upper_should_be_on sys f,
                         last_state_change_time := some now }
              else f
            else f) := by
          rw [get_flag_update_upper now sys fid, hg]
          rfl
        rw [hm2, hg] at hstate
        rw [hm2]
        by_cases ht : (f.flag_type == "upper") = true
        · by_cases hs : (f.state != upper_should_be_on sys f) = true
          · exfalso
            simp only [ht, if_true, hs, Option.map_some'] at hstate
            have hv : upper_should_be_on sys f = f.state := by simpa using hstate
            rw [hv] at hs
            simp at hs
          · simp [ht, hs]
        · simp [ht]

/-- C9, witness: re-affirming the off state of `L` in `sysStable` leaves
its `last_state_change_time` unchanged. -/
theorem claim9_witness :
    (get_flag (apply_pending_changes 5 sysStable [("L", false)]).1 "L").map
        Flag.last_state_change_time =
      (get_flag sysStable "L").map Flag.last_state_change_time :=
  claim9_theorem.1 5 sysStable [("L", false)] "L" (by decide) (by decide)

/-- C10, counterexample: in `sysDup` the upper flag `U` links `L` twice;
`remove_flag` deletes `L` but Python `list.remove` erases only the first
occurrence, so `U` still references the now-absent id `L`. -/
theorem claim10_counterexample :
    ((remove_flag sysDup "L").all_flags.map
      (fun f => (f.flag_id, f.linked_lower_flags))) = [("U", ["L"])] ∧
    get_flag (remove_flag sysDup "L") "L" = none := by
  refine ⟨by decide, by decide⟩

/-- C10, amended: provided no Upper flag's linked list contains duplicate
ids and every linked id referenced an existing flag beforehand, removing a
flag removes its id from the linked list of every remaining Upper flag,
and afterwards no Upper flag references an id absent from the graph. -/
theorem claim10_theorem (sys : FlagSystem) (fid : String)
    (hnd : ∀ f ∈ sys.all_flags, f.linked_lower_flags.Nodup)
    (hinv : ∀ f ∈ sys.all_flags, f.flag_type = "upper" →
        ∀ lid ∈ f.linked_lower_flags, ∃ g ∈ sys.all_flags, g.flag_id = lid) :
    ∀ f ∈ (remove_flag sys fid).all_flags, f.flag_type = "upper" →
      fid ∉ f.linked_lower_flags ∧
      ∀ lid ∈ f.linked_lower_flags,
        ∃ g ∈ (remove_flag sys fid).all_flags, g.flag_id = lid := by
  have himage : ∀ g ∈ sys.all_flags, g.flag_id ≠ fid →
      ∃ g2 ∈ (remove_flag sys fid).all_flags, g2.flag_id = g.flag_id := by
    intro g hg hgne
    have hgf : g ∈ sys.all_flags.filter (fun x => !(x.flag_id == fid)) :=
      List.mem_filter.mpr ⟨hg, by simp [hgne]⟩
    refine ⟨(fun x : Flag =>
        if x.flag_type == "upper" && x.linked_lower_flags.contains fid then
          { x with linked_lower_flags := x.linked_lower_flags.erase fid }
        else x) g,
      List.mem_map_of_mem _ hgf, ?_⟩
    beta_reduce
    split <;> rfl
  intro f hf hup
  obtain ⟨f0, hf0, rfl⟩ := List.mem_map.mp hf
  have hf0mem : f0 ∈ sys.all_flags := (List.mem_filter.mp hf0).1
  by_cases hc : (f0.flag_type == "upper" && f0.linked_lower_flags.contains fid) = true
  · simp only [hc, if_true] at hup ⊢
    have hnotmem : fid ∉ f0.linked_lower_flags.erase fid :=
      (hnd f0 hf0mem).not_mem_erase
    refine ⟨hnotmem, ?_⟩
    intro lid hlid
    have hlid0 : lid ∈ f0.linked_lower_flags := List.mem_of_mem_erase hlid
    have hlidne : lid ≠ fid := by
      intro he
      exact hnotmem (he ▸ hlid)
    obtain ⟨g, hg, hgid⟩ := hinv f0 hf0mem hup lid hlid0
    obtain ⟨g2, hg2, hgid2⟩ := himage g hg (by rw [hgid]; exact hlidne)
    exact ⟨g2, hg2, hgid2.trans hgid⟩
  · simp only [hc, if_false, Bool.false_eq_true] at hup ⊢
    have hupb : (f0.flag_type == "upper") = true := beq_iff_eq.mpr hup
    have hnc : f0.linked_lower_flags.contains fid = false := by
      cases he : f0.linked_lower_flags.contains fid with
      | false => rfl
      | true => exact absurd (by rw [hupb, he]; rfl) hc
    have hnotmem : fid ∉ f0.linked_lower_flags := by
      intro hmm
      have hct : f0.linked_lower_flags.contains fid = true := List.elem_iff.mpr hmm
      rw [hct] at hnc
      cases hnc
    refine ⟨hnotmem, ?_⟩
    intro lid hlid
    have hlidne : lid ≠ fid := by
      intro he
      exact hnotmem (he ▸ hlid)
    obtain ⟨g, hg, hgid⟩ := hinv f0 hf0mem hup lid hlid
    obtain ⟨g2, hg2, hgid2⟩ := himage g hg (by rw [hgid]; exact hlidne)
    exact ⟨g2, hg2, hgid2.trans hgid⟩

/-- C10, witness for the amended theorem: removing `L` from `sysStable`
(whose upper flag `U` links `L` once) leaves `U` with no reference to `L`
and no dangling link. -/
theorem claim10_witness :
    "L" ∉ (baseFlag "U" "upper").linked_lower_flags ∧
    ∀ lid ∈ (baseFlag "U" "upper").linked_lower_flags,
      ∃ g ∈ (remove_flag sysStable "L").all_flags, g.flag_id = lid :=
  claim10_theorem sysStable "L" (by decide) (by decide)
    (baseFlag "U" "upper") (by decide) (by decide)

theorem mem_stableInsert (le : Flag → Flag → Bool) (x : Flag) :
    ∀ (l : List Flag) (y : Flag), y ∈ stableInsert le x l ↔ y = x ∨ y ∈ l := by
  intro l
  induction l with
  | nil =>
      intro y
      simp [stableInsert]
  | cons z zs ih =>
      intro y
      unfold stableInsert
      by_cases h : le x z = true
      · simp only [h, if_true, List.mem_cons]
      · simp only [h, if_false, Bool.false_eq_true, List.mem_cons, ih y]
        tauto

theorem length_stableInsert (le : Flag → Flag → Bool) (x : Flag) :
    ∀ l, (stableInsert le x l).length = l.length + 1 := by
  intro l
  induction l with
  | nil => rfl
  | cons z zs ih =>
      unfold stableInsert
      by_cases h : le x z = true
      · simp [h]
      · simp [h, ih]

theorem length_stableSort (le : Flag → Flag → Bool) :
    ∀ l, (stableSort le l).length = l.length := by
  intro l
  induction l with
  | nil => rfl
  | cons x xs ih =>
      unfold stableSort
      rw [length_stableInsert, ih]
      rfl

theorem pairwise_stableInsert (le : Flag → Flag → Bool)
    (htr : ∀ a b c, le a b = true → le b c = true → le a c = true)
    (hto : ∀ a b, (le a b || le b a) = true) (x : Flag) :
    ∀ l, List.Pairwise (fun a b => le a b = true) l →
      List.Pairwise (fun a b => le a b = true) (stableInsert le x l) := by
  intro l
  induction l with
  | nil => intro _; simp [stableInsert]
  | cons z zs ih =>
      intro hp
      rw [List.pairwise_cons] at hp
      unfold stableInsert
      by_cases h : le x z = true
      · simp only [h, if_true]
        rw [List.pairwise_cons]
        constructor
        · intro b hb
          rcases List.mem_cons.mp hb with he | hbz
          · rw [he]
            exact h
          · exact htr x z b h (hp.1 b hbz)
        · rw [List.pairwise_cons]
          exact hp
      · simp only [h, if_false, Bool.false_eq_true]
        rw [List.pairwise_cons]
        constructor
        · intro b hb
          rcases (mem_stableInsert le x zs b).mp hb with he | hbz
          · rw [he]
            have hor := hto x z
            rw [Bool.or_eq_true] at hor
            rcases hor with h1 | h1
            · exact absurd h1 h
            · exact h1
          · exact hp.1 b hbz
        · exact ih hp.2

theorem pairwise_stableSort (le : Flag → Flag → Bool)
    (htr : ∀ a b c, le a b = true → le b c = true → le a c = true)
    (hto : ∀ a b, (le a b || le b a) = true) :
    ∀ l, List.Pairwise (fun a b => le a b = true) (stableSort le l) := by
  intro l
  induction l with
  | nil => simp [stableSort]
  | cons x xs ih =>
      unfold stableSort
      exact pairwise_stableInsert le htr hto x _ ih

theorem mem_stableSort (le : Flag → Flag → Bool) :
    ∀ (l : List Flag) (y : Flag), y ∈ stableSort le l ↔ y ∈ l := by
  intro l
  induction l with
  | nil => intro y; simp [stableSort]
  | cons x xs ih =>
      intro y
      unfold stableSort
      rw [mem_stableInsert, ih y, List.mem_cons]

theorem head_stableSort_min (le : Flag → Flag → Bool)
    (htr : ∀ a b c, le a b = true → le b c = true → le a c = true)
    (hto : ∀ a b, (le a b || le b a) = true)
    (l : List Flag) (w : Flag) (hw : (stableSort le l).head? = some w) :
    w ∈ l ∧ ∀ y ∈ l, le w y = true := by
  cases e : stableSort le l with
  | nil => rw [e] at hw; cases hw
  | cons a t =>
      rw [e] at hw
      have haw : a = w := by simpa using hw
      have hpw := pairwise_stableSort le htr hto l
      rw [e, List.pairwise_cons] at hpw
      constructor
      · rw [← haw]
        exact (mem_stableSort le l a).mp (e ▸ List.mem_cons_self a t)
      · intro y hy
        have hy2 : y ∈ a :: t := by
          rw [← e]
          exact (mem_stableSort le l y).mpr hy
        rcases List.mem_cons.mp hy2 with he | hyt
        · rw [← haw, he]
          have hor := hto a a
          rwa [Bool.or_self] at hor
        · rw [← haw]
          exact hpw.1 y hyt

theorem stableSort_ne_nil {le : Flag → Flag → Bool} {l : List Flag} (h : l ≠ []) :
    stableSort le l ≠ [] := by
  intro he
  apply h
  have := length_stableSort le l
  rw [he] at this
  exact List.length_eq_zero.mp this.symm

theorem priorityKeyLE_total : ∀ f g : Flag, (priorityKeyLE f g || priorityKeyLE g f) = true := by
  intro f g
  simp only [priorityKeyLE, negRecency, Bool.or_eq_true, Bool.and_eq_true,
    decide_eq_true_eq, beq_iff_eq]
  omega

theorem priorityKeyLE_trans : ∀ a b c : Flag,
    priorityKeyLE a b = true → priorityKeyLE b c = true → priorityKeyLE a c = true := by
  intro a b c h1 h2
  simp only [priorityKeyLE, negRecency, Bool.or_eq_true, Bool.and_eq_true,
    decide_eq_true_eq, beq_iff_eq] at h1 h2 ⊢
  omega

theorem recencyDescLE_total : ∀ f g : Flag, (recencyDescLE f g || recencyDescLE g f) = true := by
  intro f g
  simp only [recencyDescLE, Bool.or_eq_true, decide_eq_true_eq]
  omega

theorem recencyDescLE_trans : ∀ a b c : Flag,
    recencyDescLE a b = true → recencyDescLE b c = true → recencyDescLE a c = true := by
  intro a b c h1 h2
  simp only [recencyDescLE, decide_eq_true_eq] at h1 h2 ⊢
  omega

/-- C3: winner selection over the upper flags — no active flag means no
winner; with at least one active prioritized flag the winner is an active
prioritized flag minimal for (priority ascending, recency descending), so
lower numeric priority wins with ties broken toward the most recent
turn-on; when every ACTIVE upper flag has null priority (inactive flags
may carry priorities) the winner maximizes `last_change_time` (None read
as 0); and for active A(priority 1) and B(priority 2) the winner is A
regardless of their on-times. -/
theorem claim3_theorem (sys : FlagSystem) :
    ((∀ f ∈ upper_flags sys, f.state = false) → select_winner sys = none) ∧
    ((∃ f ∈ upper_flags sys, f.state = true) → ∃ w, select_winner sys = some w) ∧
    (∀ w, select_winner sys = some w →
      (∃ f ∈ upper_flags sys, f.state = true ∧ f.priority.isSome = true) →
      w ∈ upper_flags sys ∧ w.state = true ∧ w.priority.isSome = true ∧
        ∀ g ∈ upper_flags sys, g.state = true → g.priority.isSome = true →
          priorityKeyLE w g = true) ∧
    (∀ w, select_winner sys = some w →
      (∀ f ∈ upper_flags sys, f.state = true → f.priority = none) →
      w ∈ upper_flags sys ∧ w.state = true ∧
        ∀ g ∈ upper_flags sys, g.state = true → recencyDescLE w g = true) ∧
    (∀ a b : Flag, sys.all_flags = [a, b] →
      a.flag_type = "upper" → b.flag_type = "upper" →
      a.state = true → b.state = true →
      a.priority = some 1 → b.priority = some 2 →
      select_winner sys = some a) := by
  refine ⟨?_, ?_, ?_, ?_, ?_⟩
  · intro h
    have hA : (upper_flags sys).filter (fun f => f.state) = [] :=
      List.filter_eq_nil_iff.mpr (fun f hf => by simp [h f hf])
    simp [select_winner, hA]
  · rintro ⟨f, hf, hstate⟩
    have hfA : f ∈ (upper_flags sys).filter (fun f => f.state) :=
      List.mem_filter.mpr ⟨hf, hstate⟩
    have hAem : ((upper_flags sys).filter (fun f => f.state)).isEmpty = false :=
      List.isEmpty_eq_false.mpr (List.ne_nil_of_mem hfA)
    unfold select_winner
    simp only [hAem, Bool.false_eq_true, if_false]
    by_cases hP : (((upper_flags sys).filter (fun f => f.state)).filter
        (fun f => f.priority.isSome)).isEmpty = true
    · simp only [hP, Bool.not_true, Bool.false_eq_true, if_false]
      have hPnil := List.isEmpty_iff.mp hP
      have hfN : f ∈ ((upper_flags sys).filter (fun f => f.state)).filter
          (fun f => f.priority.isNone) := by
        refine List.mem_filter.mpr ⟨hfA, ?_⟩
        cases hpf : f.priority with
        | none => rfl
        | some v =>
            exfalso
            have hmem2 : f ∈ ((upper_flags sys).filter (fun f => f.state)).filter
                (fun f => f.priority.isSome) :=
              List.mem_filter.mpr ⟨hfA, by simp [hpf]⟩
            rw [hPnil] at hmem2
            cases hmem2
      have hNe : stableSort recencyDescLE
          (((upper_flags sys).filter (fun f => f.state)).filter
            (fun f => f.priority.isNone)) ≠ [] :=
        stableSort_ne_nil (List.ne_nil_of_mem hfN)
      cases e : stableSort recencyDescLE
          (((upper_flags sys).filter (fun f => f.state)).filter
            (fun f => f.priority.isNone)) with
      | nil => exact absurd e hNe
      | cons a t =>
          exact ⟨a, rfl⟩
    · have hPem : (((upper_flags sys).filter (fun f => f.state)).filter
          (fun f => f.priority.isSome)).isEmpty = false := by
        cases h2 : (((upper_flags sys).filter (fun f => f.state)).filter
            (fun f => f.priority.isSome)).isEmpty with
        | true => exact absurd h2 hP
        | false => rfl
      simp only [hPem, Bool.not_false, if_true]
      have hPne : ((upper_flags sys).filter (fun f => f.state)).filter
          (fun f => f.priority.isSome) ≠ [] := List.isEmpty_eq_false.mp hPem
      have hSe : stableSort priorityKeyLE
          (((upper_flags sys).filter (fun f => f.state)).filter
            (fun f => f.priority.isSome)) ≠ [] := stableSort_ne_nil hPne
      cases e : stableSort priorityKeyLE
          (((upper_flags sys).filter (fun f => f.state)).filter
            (fun f => f.priority.isSome)) with
      | nil => exact absurd e hSe
      | cons a t =>
          exact ⟨a, rfl⟩
  · intro w hsel hex
    obtain ⟨f, hf, hstate, hsome⟩ := hex
    have hfA : f ∈ (upper_flags sys).filter (fun f => f.state) :=
      List.mem_filter.mpr ⟨hf, hstate⟩
    have hfP : f ∈ ((upper_flags sys).filter (fun f => f.state)).filter
        (fun f => f.priority.isSome) :=
      List.mem_filter.mpr ⟨hfA, hsome⟩
    have hAem : ((upper_flags sys).filter (fun f => f.state)).isEmpty = false :=
      List.isEmpty_eq_false.mpr (List.ne_nil_of_mem hfA)
    have hPem : (((upper_flags sys).filter (fun f => f.state)).filter
        (fun f => f.priority.isSome)).isEmpty = false :=
      List.isEmpty_eq_false.mpr (List.ne_nil_of_mem hfP)
    unfold select_winner at hsel
    simp only [hAem, Bool.false_eq_true, if_false, hPem, Bool.not_false, if_true] at hsel
    obtain ⟨hwP, hmin⟩ :=
      head_stableSort_min priorityKeyLE priorityKeyLE_trans priorityKeyLE_total _ w hsel
    have hwA := (List.mem_filter.mp hwP).1
    refine ⟨(List.mem_filter.mp hwA).1, (List.mem_filter.mp hwA).2,
      (List.mem_filter.mp hwP).2, ?_⟩
    intro g hg hgs hgp
    exact hmin g (List.mem_filter.mpr ⟨List.mem_filter.mpr ⟨hg, hgs⟩, hgp⟩)
  · intro w hsel hall
    by_cases hA : ((upper_flags sys).filter (fun f => f.state)).isEmpty = true
    · exfalso
      unfold select_winner at hsel
      simp [hA] at hsel
    · have hAem : ((upper_flags sys).filter (fun f => f.state)).isEmpty = false := by
        cases h2 : ((upper_flags sys).filter (fun f => f.state)).isEmpty with
        | true => exact absurd h2 hA
        | false => rfl
      have hPnil : ((upper_flags sys).filter (fun f => f.state)).filter
          (fun f => f.priority.isSome) = [] :=
        List.filter_eq_nil_iff.mpr (fun f hf => by
          have hf2 : f ∈ upper_flags sys := (List.mem_filter.mp hf).1
          have hfs : f.state = true := (List.mem_filter.mp hf).2
          simp [hall f hf2 hfs])
      have hPem : (((upper_flags sys).filter (fun f => f.state)).filter
          (fun f => f.priority.isSome)).isEmpty = true := by
        rw [hPnil]
        rfl
      unfold select_winner at hsel
      simp only [hAem, Bool.false_eq_true, if_false, hPem, Bool.not_true] at hsel
      obtain ⟨hwN, hmin⟩ :=
        head_stableSort_min recencyDescLE recencyDescLE_trans recencyDescLE_total _ w hsel
      have hwA := (List.mem_filter.mp hwN).1
      refine ⟨(List.mem_filter.mp hwA).1, (List.mem_filter.mp hwA).2, ?_⟩
      intro g hg hgs
      refine hmin g (List.mem_filter.mpr ⟨List.mem_filter.mpr ⟨hg, hgs⟩, ?_⟩)
      simp [hall g hg hgs]
  · intro a b hflags hat hbt has hbs hap hbp
    have hup : upper_flags sys = [a, b] := by
      unfold upper_flags
      rw [hflags]
      simp [hat, hbt]
    have hle : priorityKeyLE a b = true := by
      simp [priorityKeyLE, hap, hbp]
    unfold select_winner
    rw [hup]
    simp [has, hbs, hap, hbp, stableSort, stableInsert, hle]


/-- C3, witness: in `sysAB`, A(priority 1, on at 10) beats
B(priority 2, on at 99). -/
theorem claim3_witness : select_winner sysAB = some flagA :=
  (claim3_theorem sysAB).2.2.2.2 flagA flagB rfl rfl rfl rfl rfl rfl rfl

end DM
